import Mathlib

/-!
# LCDisplay: a 16x2 HD44780 character display behind an I2C expander

Shallow embedding of `src/LCDisplay/lcdisplay.c` and `src/LCDisplay/lcdisplay.h`.

* The driver owns one device object, the global `lcd`. Its `u8` fields `row` and
  `column` are natural numbers kept below 256 by an explicit `% 256` at every store.
* A C `int` is an `Int`; bitwise operators act on its 32-bit two's complement pattern
  (`int_bits`), and a conversion to `u8` is `% 256`.
* Everything the driver does is appended to `Machine.trace`: taking and dropping the
  mutex, every `i2c_smbus_write_byte` attempt with the answer of the bus, every store
  to `row` or `column`, and every entry into `lcdsend` with its arguments.
* The bus is an oracle `Machine.nack`: attempt number `k` (counted from 0 over the
  whole trace) is rejected exactly when `nack k` is true.
* `udelay`, `mdelay`, `printk`, `try_module_get` and `module_put` have no effect on this
  state and are left out.
* `mutex_lock_interruptible` is resolved by the environment: each entry point takes the
  outcome of its one acquisition as the argument `lk`.
-/

namespace LCDisplay

/-! ## Constants of lcdisplay.h -/

/-- Mode - Sending data. -/
def LCD_CHR : Int := 0x01
/-- Mode - Sending command. -/
def LCD_CMD : Int := 0x00
/-- Address command of the 1st line. -/
def LCD_LINE0 : Int := 0x80
/-- Address command of the 2nd line. -/
def LCD_LINE1 : Int := 0xC0
/-- Enable bit. -/
def LCD_ENABLE : Nat := 0x04
/-- Command code: clear. -/
def LCD_CLEAR : Nat := 0x01
/-- Command code: home. -/
def LCD_HOME : Nat := 0x02
/-- Command code and expander bit: backlight. -/
def LCD_BACKLIGHT : Nat := 0x08
/-- Linux errno value behind `-ERESTARTSYS`. -/
def ERESTARTSYS : Int := 512

/-! ## Machine state -/

/-- One observable step of the driver. -/
inductive Event where
  /-- Successful `mutex_lock_interruptible(&lcd->mtx)`. -/
  | lock
  /-- The call `mutex_unlock(&lcd->mtx)`. -/
  | unlock
  /-- One `i2c_smbus_write_byte` attempt: the byte put on the bus, and whether it was acknowledged. -/
  | i2c (data : Nat) (ack : Bool)
  /-- A store to `lcd->row`. -/
  | store_row (v : Nat)
  /-- A store to `lcd->column`. -/
  | store_column (v : Nat)
  /-- Entry into `lcdsend(l, bits, mode)` with a non-NULL `l`. -/
  | send (bits mode : Int)
  deriving DecidableEq, Repr

/-- The global device `lcd` (fields `row`, `column`, `mtx` of `lcd_t`) with its environment. -/
structure Machine where
  /-- Field `u8 row`. -/
  row : Nat
  /-- Field `u8 column`. -/
  column : Nat
  /-- Whether `mtx` is held. -/
  mtx : Bool
  /-- Everything done so far, oldest first. -/
  trace : List Event
  /-- Bus oracle: the attempt with this index is rejected. -/
  nack : Nat → Bool

/-- A value of type `lcd_t *`: NULL or the address of the one device object. -/
inductive lcd_ptr where
  | NULL
  | lcd
  deriving DecidableEq, Repr

/-- How a call of `mutex_lock_interruptible` ends. -/
inductive LockOutcome where
  /-- The mutex was taken; the call returns 0. -/
  | acquired
  /-- A signal arrived while waiting; the call returns non-zero and the mutex is not taken. -/
  | interrupted
  deriving DecidableEq, Repr

/-- The byte of a bus attempt. -/
def Event.byte : Event → Option Nat
  | .i2c d _ => some d
  | _ => none

/-- The arguments of a logical send. -/
def Event.call : Event → Option (Int × Int)
  | .send b md => some (b, md)
  | _ => none

/-- The new value of a cursor store. -/
def Event.stored : Event → Option Nat
  | .store_row v => some v
  | .store_column v => some v
  | _ => none

/-- The bytes put on the bus, in order, acknowledged or not. -/
def bus (tr : List Event) : List Nat := tr.filterMap Event.byte

/-- The logical sends `(bits, mode)`, in order. -/
def sends (tr : List Event) : List (Int × Int) := tr.filterMap Event.call

/-- The values stored to `row` or `column`, in order. -/
def stores (tr : List Event) : List Nat := tr.filterMap Event.stored

/-- The 32-bit two's complement pattern of a C `int`. -/
def int_bits (x : Int) : Nat := (x % 4294967296).toNat

/-- The pattern of ~LCD_ENABLE as an `int`. -/
def NOT_LCD_ENABLE : Nat := 4294967295 - LCD_ENABLE

/-! ## Low level -/

/-- Macro `I2C_WRITE(client, data)`, that is `i2c_smbus_write_byte(client, (u8) data)`:
puts one byte on the bus and returns 0, or a negative errno (here -5) when the bus
rejects it. -/
def I2C_WRITE (data : Nat) (m : Machine) : Int × Machine :=
  let ok := !(m.nack (bus m.trace).length)
  (if ok then 0 else -5, { m with trace := m.trace ++ [Event.i2c (data % 256) ok] })

/-- Store to `lcd->row` (a `u8`). -/
def set_row (v : Nat) (m : Machine) : Machine :=
  { m with row := v % 256, trace := m.trace ++ [Event.store_row (v % 256)] }

/-- Store to `lcd->column` (a `u8`). -/
def set_column (v : Nat) (m : Machine) : Machine :=
  { m with column := v % 256, trace := m.trace ++ [Event.store_column (v % 256)] }

/-- The call `mutex_lock_interruptible(&lcd->mtx)`. -/
def mutex_lock_interruptible (lk : LockOutcome) (m : Machine) : Int × Machine :=
  match lk with
  | .acquired => (0, { m with mtx := true, trace := m.trace ++ [Event.lock] })
  | .interrupted => (-4, m)

/-- The call `mutex_unlock(&lcd->mtx)`. -/
def mutex_unlock (m : Machine) : Machine :=
  { m with mtx := false, trace := m.trace ++ [Event.unlock] }

/-! ## Display functions of lcdisplay.c -/

/-- Function `lcdtoggleenable(l, bits)`: the results of both writes are discarded. -/
def lcdtoggleenable (l : lcd_ptr) (bits : Int) (m : Machine) : Machine :=
  match l with
  | .NULL => m
  | .lcd =>
    let m := (I2C_WRITE (int_bits bits ||| LCD_ENABLE) m).2
    let m := (I2C_WRITE (int_bits bits &&& NOT_LCD_ENABLE) m).2
    m

/-- Local `bits_high` of `lcdsend`: `(u8)(mode | (bits & 0xF0) | LCD_BACKLIGHT)`. -/
def bits_high (bits mode : Int) : Nat :=
  (int_bits mode ||| (int_bits bits &&& 0xF0) ||| LCD_BACKLIGHT) % 256

/-- Local `bits_low` of `lcdsend`: `(u8)(mode | ((bits << 4) & 0xF0) | LCD_BACKLIGHT)`. -/
def bits_low (bits mode : Int) : Nat :=
  (int_bits mode ||| (((int_bits bits <<< 4) % 4294967296) &&& 0xF0) ||| LCD_BACKLIGHT) % 256

/-- Function `lcdsend(l, bits, mode)`: the results of both writes are discarded. -/
def lcdsend (l : lcd_ptr) (bits mode : Int) (m : Machine) : Machine :=
  match l with
  | .NULL => m
  | .lcd =>
    let m := { m with trace := m.trace ++ [Event.send bits mode] }
    let m := (I2C_WRITE (bits_high bits mode) m).2
    let m := lcdtoggleenable l (bits_high bits mode) m
    let m := (I2C_WRITE (bits_low bits mode) m).2
    let m := lcdtoggleenable l (bits_low bits mode) m
    m

/-- Function `lcdclear(l)`. -/
def lcdclear (l : lcd_ptr) (m : Machine) : Machine :=
  match l with
  | .NULL => m
  | .lcd =>
    let m := set_column 0 m
    let m := set_row 0 m
    lcdsend l (LCD_CLEAR : Nat) LCD_CMD m

/-- Function `lcdhome(l)`. -/
def lcdhome (l : lcd_ptr) (m : Machine) : Machine :=
  match l with
  | .NULL => m
  | .lcd =>
    let m := set_column 0 m
    let m := set_row 0 m
    lcdsend l (LCD_HOME : Nat) LCD_CMD m

/-- Function `lcdrestart(l)`. -/
def lcdrestart (l : lcd_ptr) (m : Machine) : Machine :=
  match l with
  | .NULL => m
  | .lcd => lcdhome l (lcdclear l m)

/-- One turn of the `while(*s)` loop of `lcdwrite`, for the character `ch`. -/
def lcdwrite_step (l : lcd_ptr) (ch : Int) (m : Machine) : Machine :=
  let m := lcdsend l ch LCD_CHR m
  let m := set_column (m.column + 1) m
  if m.column = 16 then
    let m :=
      if m.row = 0 then
        lcdsend l LCD_LINE1 LCD_CMD (set_row 1 m)
      else
        lcdsend l LCD_LINE0 LCD_CMD (set_row 0 m)
    set_column 0 m
  else m

/-- The loop `while(*s)` of `lcdwrite` over the characters at `s`: it stops at the first
NUL; the end of the list stands for the terminating NUL. -/
def lcdwrite_loop (l : lcd_ptr) : List Int → Machine → Machine
  | [], m => m
  | ch :: s, m => if ch = 0 then m else lcdwrite_loop l s (lcdwrite_step l ch m)

/-- Function `lcdwrite(l, s)`; `none` is a NULL `s`. -/
def lcdwrite (l : lcd_ptr) (s : Option (List Int)) (m : Machine) : Machine :=
  match l, s with
  | .lcd, some t => lcdwrite_loop l t m
  | _, _ => m

/-- Function `lcdsetbacklight(l, bl)` with `bl` a `u8`: the result of the write is discarded. -/
def lcdsetbacklight (l : lcd_ptr) (bl : Nat) (m : Machine) : Machine :=
  match l with
  | .NULL => m
  | .lcd => (I2C_WRITE (if bl ≠ 0 then LCD_BACKLIGHT else 0) m).2

/-- The string literal "Driver LCDisplay" as character codes. -/
def banner : List Int :=
  [68, 114, 105, 118, 101, 114, 32, 76, 67, 68, 105, 115, 112, 108, 97, 121]

/-- Function `lcdinit(l)`. -/
def lcdinit (l : lcd_ptr) (m : Machine) : Machine :=
  match l with
  | .NULL => m
  | .lcd =>
    let m := lcdsend l 0x33 LCD_CMD m
    let m := lcdsend l 0x32 LCD_CMD m
    let m := lcdsend l 0x06 LCD_CMD m
    let m := lcdsend l 0x0C LCD_CMD m
    let m := lcdsend l 0x28 LCD_CMD m
    let m := lcdclear l m
    let m := lcdhome l m
    let m := set_row 0 m
    let m := set_column 0 m
    let m := lcdsend l LCD_LINE0 LCD_CMD m
    lcdwrite l (some banner) m

/-- Function `lcdfinalize(l)`. -/
def lcdfinalize (l : lcd_ptr) (m : Machine) : Machine :=
  match l with
  | .NULL => m
  | .lcd => lcdsetbacklight l 0 (lcdrestart l m)

/-! ## Entry points of lcdisplay.c -/

/-- Function `lcdisplay_probe`, past the allocation and `cdev_add`: it zeroes the cursor,
initialises the mutex and runs `lcdinit(lcd)`. -/
def lcdisplay_probe (m : Machine) : Int × Machine :=
  let m := set_row 0 m
  let m := set_column 0 m
  let m := { m with mtx := false }
  (0, lcdinit .lcd m)

/-- Function `lcdisplay_remove`; `l` is what `i2c_get_clientdata` returns. -/
def lcdisplay_remove (l : lcd_ptr) (m : Machine) : Int × Machine :=
  match l with
  | .lcd => (0, lcdfinalize l m)
  | .NULL => (-1, m)

/-- Function `lcdisplay_open`. -/
def lcdisplay_open (lk : LockOutcome) (m : Machine) : Int × Machine :=
  let (r, m) := mutex_lock_interruptible lk m
  if r ≠ 0 then (-ERESTARTSYS, m) else
  let m := lcdrestart .lcd m
  let m := lcdsetbacklight .lcd 1 m
  let m := mutex_unlock m
  (0, m)

/-- Function `lcdisplay_release`. -/
def lcdisplay_release (lk : LockOutcome) (m : Machine) : Int × Machine :=
  let (r, m) := mutex_lock_interruptible lk m
  if r ≠ 0 then (-ERESTARTSYS, m) else
  let m := lcdrestart .lcd m
  let m := lcdsetbacklight .lcd 0 m
  let m := mutex_unlock m
  (0, m)

/-- Function `lcdisplay_write`; `none` is a NULL `buffer`, `sizeof_ptr` is `sizeof(buffer)`,
the size of a pointer on the target. -/
def lcdisplay_write (sizeof_ptr : Nat) (lk : LockOutcome) (buffer : Option (List Int))
    (_length : Nat) (m : Machine) : Int × Machine :=
  match buffer with
  | none => (0, m)
  | some _ =>
    let (r, m) := mutex_lock_interruptible lk m
    if r ≠ 0 then (-ERESTARTSYS, m) else
    let m := lcdwrite .lcd buffer m
    let m := mutex_unlock m
    (sizeof_ptr, m)

/-- Function `lcdisplay_read`. -/
def lcdisplay_read (m : Machine) : Int × Machine := (0, m)

/-- Function `lcdisplay_ioctl`; `arg` is an `unsigned long`, converted to `u8` when it is
passed to `lcdsetbacklight`. -/
def lcdisplay_ioctl (lk : LockOutcome) (cmd : Nat) (arg : Nat) (m : Machine) : Int × Machine :=
  let (r, m) := mutex_lock_interruptible lk m
  if r ≠ 0 then (-ERESTARTSYS, m) else
  let m :=
    if cmd = LCD_CLEAR then lcdclear .lcd m
    else if cmd = LCD_HOME then lcdhome .lcd m
    else if cmd = LCD_BACKLIGHT then lcdsetbacklight .lcd (arg % 256) m
    else m
  let m := mutex_unlock m
  (0, m)


/-! ## Vocabulary of the claims -/

/-- The six bytes of one `lcdsend(l, bits, mode)`, as the claims list them: each nibble
byte plain, with the enable bit set, and with the enable bit cleared. -/
def send_bytes (bits mode : Int) : List Nat :=
  [bits_high bits mode, bits_high bits mode ||| LCD_ENABLE, bits_high bits mode &&& 0xFB,
   bits_low bits mode, bits_low bits mode ||| LCD_ENABLE, bits_low bits mode &&& 0xFB]

/-- The bytes of a sequence of logical sends. -/
def sends_bytes : List (Int × Int) → List Nat
  | [] => []
  | p :: ps => send_bytes p.1 p.2 ++ sends_bytes ps

/-- The cursor invariant of the data model: `row ∈ {0,1}` and `0 <= column < 16`. -/
def cursor_ok (m : Machine) : Prop := m.row ≤ 1 ∧ m.column < 16

instance (m : Machine) : Decidable (cursor_ok m) := by
  unfold cursor_ok; infer_instance

/-- The logical sends of a write as the spec words them: every character in Character
mode, and after a character that brings the column to 16 one Command-mode line address,
`LCD_LINE1` when the row was 0 and `LCD_LINE0` otherwise. Arguments: text, row, column. -/
def spec_write_sends : List Int → Nat → Nat → List (Int × Int)
  | [], _, _ => []
  | ch :: t, r, c =>
    if c + 1 = 16 then
      (ch, LCD_CHR) :: (if r = 0 then LCD_LINE1 else LCD_LINE0, LCD_CMD) ::
        spec_write_sends t (if r = 0 then 1 else 0) 0
    else
      (ch, LCD_CHR) :: spec_write_sends t r (c + 1)

/-- A machine with the cursor at `(row, column)`, the mutex free, nothing done yet and
the given bus oracle. -/
def fresh (row column : Nat) (nack : Nat → Bool) : Machine :=
  { row := row, column := column, mtx := false, trace := [], nack := nack }

/-- The bus that acknowledges every transfer. -/
def bus_ok : Nat → Bool := fun _ => false

/-- Two machines that differ at most in the answers of the bus. -/
def same_but_acks (m m' : Machine) : Prop :=
  m.row = m'.row ∧ m.column = m'.column ∧ m.mtx = m'.mtx ∧ bus m.trace = bus m'.trace ∧
    sends m.trace = sends m'.trace ∧ stores m.trace = stores m'.trace

/-- A stretch of trace without any mutex event. -/
def no_lock (d : List Event) : Prop := ∀ e ∈ d, e ≠ Event.lock ∧ e ≠ Event.unlock

instance (d : List Event) : Decidable (no_lock d) := by
  unfold no_lock; infer_instance

/-- A stretch of trace that is one critical section: the mutex is taken first, dropped
last, and no mutex event lies in between. -/
def critical_section (d : List Event) : Prop :=
  ∃ body, d = Event.lock :: (body ++ [Event.unlock]) ∧ no_lock body

/-- Machine `m'` continues the trace of `m` by a stretch without mutex events. -/
def runs_unlocked (m m' : Machine) : Prop :=
  ∃ d, m'.trace = m.trace ++ d ∧ no_lock d

/-- One file operation on the device, with the outcome of its lock acquisition. -/
inductive Op where
  | do_open (lk : LockOutcome)
  | do_release (lk : LockOutcome)
  | do_write (sizeof_ptr : Nat) (lk : LockOutcome) (buffer : Option (List Int)) (length : Nat)
  | do_ioctl (lk : LockOutcome) (cmd arg : Nat)

/-- The machine after one file operation. -/
def run_op (m : Machine) : Op → Machine
  | .do_open lk => (lcdisplay_open lk m).2
  | .do_release lk => (lcdisplay_release lk m).2
  | .do_write sz lk buffer len => (lcdisplay_write sz lk buffer len m).2
  | .do_ioctl lk cmd arg => (lcdisplay_ioctl lk cmd arg m).2

/-- The machine after a finite sequence of file operations, first to last. -/
def run_ops (ops : List Op) (m : Machine) : Machine := ops.foldl run_op m

/-- The reference controller of the refinement claim, one logical send at a time: a
Character-mode send adds one to the address counter; the commands 0x01 and 0x02 set it
to 0; a command 0x80 OR a, with a below 0x80, sets it to a; any other command leaves
it as it is. -/
def controller_step (ac : Nat) (p : Int × Int) : Nat :=
  if p.2 = LCD_CHR then ac + 1
  else if p.1 = 0x01 ∨ p.1 = 0x02 then 0
  else if 0x80 ≤ p.1 ∧ p.1 < 0x100 then (p.1 - 0x80).toNat
  else ac

/-- The address counter of the reference controller after the logical sends of a trace,
started at `ac0`. -/
def address_counter (ac0 : Nat) (tr : List Event) : Nat :=
  (sends tr).foldl controller_step ac0

/-- The logical cursor agrees with the reference controller started at `ac0`: the
cursor invariant holds and the address counter is 0x40 * row + column. -/
def cursor_synced (ac0 : Nat) (m : Machine) : Prop :=
  cursor_ok m ∧ address_counter ac0 m.trace = 0x40 * m.row + m.column

/-- The order-preserving merges of two stretches of trace: `interleaving a b x` says
that `x` is made of the events of `a` and of `b`, each stretch in its own order. -/
inductive interleaving : List Event → List Event → List Event → Prop where
  | nil : interleaving [] [] []
  | left (e : Event) {a b x : List Event} : interleaving a b x → interleaving (e :: a) b (e :: x)
  | right (e : Event) {a b x : List Event} : interleaving a b x → interleaving a (e :: b) (e :: x)

/-- The guarantee of the kernel mutex along a trace: it is taken only while free and
dropped only while held. The first argument says whether it is held at the start. -/
def mutex_respected : Bool → List Event → Bool
  | _, [] => true
  | held, Event.lock :: es => !held && mutex_respected true es
  | held, Event.unlock :: es => held && mutex_respected false es
  | held, Event.i2c _ _ :: es => mutex_respected held es
  | held, Event.store_row _ :: es => mutex_respected held es
  | held, Event.store_column _ :: es => mutex_respected held es
  | held, Event.send _ _ :: es => mutex_respected held es

/-- What a write of "AAAA" from the cursor (0,0) adds to the trace. -/
def stretch_A : List Event :=
  (lcdisplay_write 4 .acquired (some [0x41, 0x41, 0x41, 0x41]) 4 (fresh 0 0 bus_ok)).2.trace

/-- What a write of "BBBB" from the cursor (0,4) adds to the trace. -/
def stretch_B : List Event :=
  (lcdisplay_write 4 .acquired (some [0x42, 0x42, 0x42, 0x42]) 4 (fresh 0 4 bus_ok)).2.trace

/-- What the control command LCD_CLEAR from the cursor (0,4) adds to the trace. -/
def stretch_clear : List Event :=
  (lcdisplay_ioctl .acquired LCD_CLEAR 0 (fresh 0 4 bus_ok)).2.trace

/-! ## Trace projections -/

@[simp] theorem bus_nil : bus [] = [] := rfl
@[simp] theorem bus_append (a b : List Event) : bus (a ++ b) = bus a ++ bus b := by
  simp [bus]
@[simp] theorem bus_i2c (d : Nat) (k : Bool) (es : List Event) :
    bus (Event.i2c d k :: es) = d :: bus es := rfl
@[simp] theorem bus_lock (es : List Event) :
    bus (Event.lock :: es) = bus es := rfl
@[simp] theorem bus_unlock (es : List Event) :
    bus (Event.unlock :: es) = bus es := rfl
@[simp] theorem bus_store_row (v : Nat) (es : List Event) :
    bus (Event.store_row v :: es) = bus es := rfl
@[simp] theorem bus_store_column (v : Nat) (es : List Event) :
    bus (Event.store_column v :: es) = bus es := rfl
@[simp] theorem bus_send (b md : Int) (es : List Event) :
    bus (Event.send b md :: es) = bus es := rfl

@[simp] theorem sends_nil : sends [] = [] := rfl
@[simp] theorem sends_append (a b : List Event) : sends (a ++ b) = sends a ++ sends b := by
  simp [sends]
@[simp] theorem sends_i2c (d : Nat) (k : Bool) (es : List Event) :
    sends (Event.i2c d k :: es) = sends es := rfl
@[simp] theorem sends_lock (es : List Event) :
    sends (Event.lock :: es) = sends es := rfl
@[simp] theorem sends_unlock (es : List Event) :
    sends (Event.unlock :: es) = sends es := rfl
@[simp] theorem sends_store_row (v : Nat) (es : List Event) :
    sends (Event.store_row v :: es) = sends es := rfl
@[simp] theorem sends_store_column (v : Nat) (es : List Event) :
    sends (Event.store_column v :: es) = sends es := rfl
@[simp] theorem sends_send (b md : Int) (es : List Event) :
    sends (Event.send b md :: es) = (b, md) :: sends es := rfl

@[simp] theorem stores_nil : stores [] = [] := rfl
@[simp] theorem stores_append (a b : List Event) : stores (a ++ b) = stores a ++ stores b := by
  simp [stores]
@[simp] theorem stores_i2c (d : Nat) (k : Bool) (es : List Event) :
    stores (Event.i2c d k :: es) = stores es := rfl
@[simp] theorem stores_lock (es : List Event) :
    stores (Event.lock :: es) = stores es := rfl
@[simp] theorem stores_unlock (es : List Event) :
    stores (Event.unlock :: es) = stores es := rfl
@[simp] theorem stores_store_row (v : Nat) (es : List Event) :
    stores (Event.store_row v :: es) = v :: stores es := rfl
@[simp] theorem stores_store_column (v : Nat) (es : List Event) :
    stores (Event.store_column v :: es) = v :: stores es := rfl
@[simp] theorem stores_send (b md : Int) (es : List Event) :
    stores (Event.send b md :: es) = stores es := rfl

@[simp] theorem sends_bytes_append (a b : List (Int × Int)) :
    sends_bytes (a ++ b) = sends_bytes a ++ sends_bytes b := by
  induction a with
  | nil => rfl
  | cons p ps ih => simp [sends_bytes, ih]

/-! ## Bytes -/

theorem int_bits_natCast (n : Nat) (h : n < 4294967296) : int_bits (n : Int) = n := by
  unfold int_bits
  have : ((n : Int) % 4294967296) = (n : Int) := Int.emod_eq_of_lt (by omega) (by omega)
  rw [this]; simp

theorem bits_high_lt (bits mode : Int) : bits_high bits mode < 256 :=
  Nat.mod_lt _ (by decide)

theorem bits_low_lt (bits mode : Int) : bits_low bits mode < 256 :=
  Nat.mod_lt _ (by decide)

theorem u8_or_enable (x : Nat) (h : x < 256) : (x ||| LCD_ENABLE) % 256 = x ||| LCD_ENABLE := by
  interval_cases x <;> rfl

theorem u8_and_not_enable (x : Nat) (h : x < 256) : (x &&& NOT_LCD_ENABLE) % 256 = x &&& 0xFB := by
  interval_cases x <;> rfl

/-! ## Frame and bus lemmas of the engine -/

@[simp] theorem I2C_WRITE_row (d : Nat) (m : Machine) : (I2C_WRITE d m).2.row = m.row := rfl
@[simp] theorem I2C_WRITE_column (d : Nat) (m : Machine) : (I2C_WRITE d m).2.column = m.column := rfl
@[simp] theorem I2C_WRITE_mtx (d : Nat) (m : Machine) : (I2C_WRITE d m).2.mtx = m.mtx := rfl
@[simp] theorem I2C_WRITE_nack (d : Nat) (m : Machine) : (I2C_WRITE d m).2.nack = m.nack := rfl
@[simp] theorem I2C_WRITE_bus (d : Nat) (m : Machine) :
    bus (I2C_WRITE d m).2.trace = bus m.trace ++ [d % 256] := by
  simp [I2C_WRITE]
@[simp] theorem I2C_WRITE_sends (d : Nat) (m : Machine) :
    sends (I2C_WRITE d m).2.trace = sends m.trace := by
  simp [I2C_WRITE]
@[simp] theorem I2C_WRITE_stores (d : Nat) (m : Machine) :
    stores (I2C_WRITE d m).2.trace = stores m.trace := by
  simp [I2C_WRITE]

@[simp] theorem lcdsend_row (b md : Int) (m : Machine) : (lcdsend .lcd b md m).row = m.row := rfl
@[simp] theorem lcdsend_column (b md : Int) (m : Machine) :
    (lcdsend .lcd b md m).column = m.column := rfl
@[simp] theorem lcdsend_mtx (b md : Int) (m : Machine) : (lcdsend .lcd b md m).mtx = m.mtx := rfl
@[simp] theorem lcdsend_nack (b md : Int) (m : Machine) : (lcdsend .lcd b md m).nack = m.nack := rfl

theorem lcdtoggleenable_bus (x : Nat) (h : x < 256) (m : Machine) :
    bus (lcdtoggleenable .lcd (x : Int) m).trace = bus m.trace ++ [x ||| LCD_ENABLE, x &&& 0xFB] := by
  simp [lcdtoggleenable, int_bits_natCast x (by omega), u8_or_enable x h, u8_and_not_enable x h]

@[simp] theorem lcdtoggleenable_sends (b : Int) (m : Machine) :
    sends (lcdtoggleenable .lcd b m).trace = sends m.trace := by
  simp [lcdtoggleenable]

@[simp] theorem lcdtoggleenable_stores (b : Int) (m : Machine) :
    stores (lcdtoggleenable .lcd b m).trace = stores m.trace := by
  simp [lcdtoggleenable]

@[simp] theorem lcdsend_bus (b md : Int) (m : Machine) :
    bus (lcdsend .lcd b md m).trace = bus m.trace ++ send_bytes b md := by
  simp [lcdsend, send_bytes, lcdtoggleenable_bus _ (bits_high_lt b md),
    lcdtoggleenable_bus _ (bits_low_lt b md), Nat.mod_eq_of_lt (bits_high_lt b md),
    Nat.mod_eq_of_lt (bits_low_lt b md)]

@[simp] theorem lcdsend_sends (b md : Int) (m : Machine) :
    sends (lcdsend .lcd b md m).trace = sends m.trace ++ [(b, md)] := by
  simp [lcdsend]

@[simp] theorem lcdsend_stores (b md : Int) (m : Machine) :
    stores (lcdsend .lcd b md m).trace = stores m.trace := by
  simp [lcdsend]

/-! ## One turn of the write loop -/

theorem lcdwrite_step_cursor (ch : Int) (m : Machine) (h : cursor_ok m) :
    (lcdwrite_step .lcd ch m).column = (m.column + 1) % 16 ∧
    (lcdwrite_step .lcd ch m).row = if m.column + 1 = 16 then 1 - m.row else m.row := by
  obtain ⟨hr, hc⟩ := h
  have h256 : (m.column + 1) % 256 = m.column + 1 := Nat.mod_eq_of_lt (by omega)
  by_cases h16 : m.column + 1 = 16
  · by_cases h0 : m.row = 0
    · simp [lcdwrite_step, set_column, set_row, h16, h0]
    · have h1 : m.row = 1 := by omega
      simp [lcdwrite_step, set_column, set_row, h16, h1]
  · simp [lcdwrite_step, set_column, set_row, h256, h16]
    omega

theorem lcdwrite_step_ok (ch : Int) (m : Machine) (h : cursor_ok m) :
    cursor_ok (lcdwrite_step .lcd ch m) := by
  obtain ⟨hc, hr⟩ := lcdwrite_step_cursor ch m h
  obtain ⟨h1, h2⟩ := h
  unfold cursor_ok
  rw [hc, hr]
  constructor
  · split <;> omega
  · omega

theorem lcdwrite_step_sends (ch : Int) (m : Machine) (h : cursor_ok m) :
    sends (lcdwrite_step .lcd ch m).trace = sends m.trace ++
      if m.column + 1 = 16 then
        [(ch, LCD_CHR), (if m.row = 0 then LCD_LINE1 else LCD_LINE0, LCD_CMD)]
      else [(ch, LCD_CHR)] := by
  obtain ⟨hr, hc⟩ := h
  have h256 : (m.column + 1) % 256 = m.column + 1 := Nat.mod_eq_of_lt (by omega)
  by_cases h16 : m.column + 1 = 16
  · by_cases h0 : m.row = 0
    · simp [lcdwrite_step, set_column, set_row, h16, h0]
    · simp [lcdwrite_step, set_column, set_row, h16, h0]
  · simp [lcdwrite_step, set_column, set_row, h256, h16]

theorem lcdwrite_step_bus (ch : Int) (m : Machine) (h : cursor_ok m) :
    bus (lcdwrite_step .lcd ch m).trace = bus m.trace ++
      sends_bytes (if m.column + 1 = 16 then
        [(ch, LCD_CHR), (if m.row = 0 then LCD_LINE1 else LCD_LINE0, LCD_CMD)]
      else [(ch, LCD_CHR)]) := by
  obtain ⟨hr, hc⟩ := h
  have h256 : (m.column + 1) % 256 = m.column + 1 := Nat.mod_eq_of_lt (by omega)
  by_cases h16 : m.column + 1 = 16
  · by_cases h0 : m.row = 0
    · simp [lcdwrite_step, set_column, set_row, h16, h0, sends_bytes]
    · simp [lcdwrite_step, set_column, set_row, h16, h0, sends_bytes]
  · simp [lcdwrite_step, set_column, set_row, h256, h16, sends_bytes]

/-! ## The write loop -/

theorem lcdwrite_loop_ok (t : List Int) (m : Machine) (h : cursor_ok m) :
    cursor_ok (lcdwrite_loop .lcd t m) := by
  induction t generalizing m with
  | nil => exact h
  | cons ch s ih =>
    unfold lcdwrite_loop
    split
    · exact h
    · exact ih _ (lcdwrite_step_ok ch m h)

theorem lcdwrite_loop_cursor (t : List Int) (m : Machine) (hz : ∀ ch ∈ t, ch ≠ 0)
    (h : cursor_ok m) :
    (lcdwrite_loop .lcd t m).column = (m.column + t.length) % 16 ∧
    (lcdwrite_loop .lcd t m).row =
      if (m.column + t.length) / 16 % 2 = 0 then m.row else 1 - m.row := by
  induction t generalizing m with
  | nil =>
    obtain ⟨hr, hc⟩ := h
    have h0 : m.column / 16 = 0 := Nat.div_eq_of_lt hc
    simp [lcdwrite_loop, Nat.mod_eq_of_lt hc, h0]
  | cons ch s ih =>
    have hch : ch ≠ 0 := hz ch (List.mem_cons_self _ _)
    have hs : ∀ c ∈ s, c ≠ 0 := fun c hc => hz c (List.mem_cons_of_mem _ hc)
    obtain ⟨ihc, ihr⟩ := ih (lcdwrite_step .lcd ch m) hs (lcdwrite_step_ok ch m h)
    obtain ⟨sc, sr⟩ := lcdwrite_step_cursor ch m h
    obtain ⟨hr, hc⟩ := h
    simp only [lcdwrite_loop, if_neg hch, List.length_cons]
    rw [ihc, ihr, sc, sr]
    constructor
    · omega
    · split <;> split <;> split <;> omega

theorem lcdwrite_loop_sends (t : List Int) (m : Machine) (hz : ∀ ch ∈ t, ch ≠ 0)
    (h : cursor_ok m) :
    sends (lcdwrite_loop .lcd t m).trace = sends m.trace ++ spec_write_sends t m.row m.column ∧
    bus (lcdwrite_loop .lcd t m).trace =
      bus m.trace ++ sends_bytes (spec_write_sends t m.row m.column) := by
  induction t generalizing m with
  | nil => simp [lcdwrite_loop, spec_write_sends, sends_bytes]
  | cons ch s ih =>
    have hch : ch ≠ 0 := hz ch (List.mem_cons_self _ _)
    have hs : ∀ c ∈ s, c ≠ 0 := fun c hc => hz c (List.mem_cons_of_mem _ hc)
    obtain ⟨ihs, ihb⟩ := ih (lcdwrite_step .lcd ch m) hs (lcdwrite_step_ok ch m h)
    obtain ⟨sc, sr⟩ := lcdwrite_step_cursor ch m h
    have ss := lcdwrite_step_sends ch m h
    have sb := lcdwrite_step_bus ch m h
    obtain ⟨hr, hc⟩ := h
    simp only [lcdwrite_loop, if_neg hch]
    rw [ihs, ihb, sc, sr, ss, sb]
    by_cases h16 : m.column + 1 = 16
    · by_cases h0 : m.row = 0
      · simp [spec_write_sends, h16, h0, sends_bytes]
      · have h1 : m.row = 1 := by omega
        simp [spec_write_sends, h16, h1, sends_bytes]
    · have hm : (m.column + 1) % 16 = m.column + 1 := Nat.mod_eq_of_lt (by omega)
      simp [spec_write_sends, h16, hm, sends_bytes]

/-! ## Clear, home, restart, backlight -/

@[simp] theorem lcdclear_row (m : Machine) : (lcdclear .lcd m).row = 0 := rfl
@[simp] theorem lcdclear_column (m : Machine) : (lcdclear .lcd m).column = 0 := rfl
@[simp] theorem lcdclear_bus (m : Machine) :
    bus (lcdclear .lcd m).trace = bus m.trace ++ send_bytes 0x01 LCD_CMD := by
  simp [lcdclear, set_row, set_column, LCD_CLEAR]
@[simp] theorem lcdclear_sends (m : Machine) :
    sends (lcdclear .lcd m).trace = sends m.trace ++ [(0x01, LCD_CMD)] := by
  simp [lcdclear, set_row, set_column, LCD_CLEAR]

@[simp] theorem lcdhome_row (m : Machine) : (lcdhome .lcd m).row = 0 := rfl
@[simp] theorem lcdhome_column (m : Machine) : (lcdhome .lcd m).column = 0 := rfl
@[simp] theorem lcdhome_bus (m : Machine) :
    bus (lcdhome .lcd m).trace = bus m.trace ++ send_bytes 0x02 LCD_CMD := by
  simp [lcdhome, set_row, set_column, LCD_HOME]
@[simp] theorem lcdhome_sends (m : Machine) :
    sends (lcdhome .lcd m).trace = sends m.trace ++ [(0x02, LCD_CMD)] := by
  simp [lcdhome, set_row, set_column, LCD_HOME]

@[simp] theorem lcdrestart_row (m : Machine) : (lcdrestart .lcd m).row = 0 := rfl
@[simp] theorem lcdrestart_column (m : Machine) : (lcdrestart .lcd m).column = 0 := rfl

@[simp] theorem lcdsetbacklight_row (bl : Nat) (m : Machine) :
    (lcdsetbacklight .lcd bl m).row = m.row := rfl
@[simp] theorem lcdsetbacklight_column (bl : Nat) (m : Machine) :
    (lcdsetbacklight .lcd bl m).column = m.column := rfl
@[simp] theorem lcdsetbacklight_bus (bl : Nat) (m : Machine) :
    bus (lcdsetbacklight .lcd bl m).trace = bus m.trace ++ [if bl = 0 then 0x00 else 0x08] := by
  by_cases h : bl = 0 <;> simp [lcdsetbacklight, h, LCD_BACKLIGHT]
@[simp] theorem lcdsetbacklight_sends (bl : Nat) (m : Machine) :
    sends (lcdsetbacklight .lcd bl m).trace = sends m.trace := by
  simp [lcdsetbacklight]

@[simp] theorem mutex_unlock_row (m : Machine) : (mutex_unlock m).row = m.row := rfl
@[simp] theorem mutex_unlock_column (m : Machine) : (mutex_unlock m).column = m.column := rfl
@[simp] theorem mutex_unlock_bus (m : Machine) : bus (mutex_unlock m).trace = bus m.trace := by
  simp [mutex_unlock]
@[simp] theorem mutex_unlock_sends (m : Machine) :
    sends (mutex_unlock m).trace = sends m.trace := by
  simp [mutex_unlock]

theorem lcdinit_ok (m : Machine) : cursor_ok (lcdinit .lcd m) := by
  unfold lcdinit lcdwrite
  exact lcdwrite_loop_ok _ _ (by simp [cursor_ok, set_row, set_column])

/-! ## Bit facts of the two nibble bytes -/

theorem or_mod_256 (x y : Nat) : (x ||| y) % 256 = x % 256 ||| y % 256 := by
  apply Nat.eq_of_testBit_eq
  intro i
  have e : (256 : Nat) = 2 ^ 8 := by norm_num
  simp only [e, Nat.testBit_mod_two_pow, Nat.testBit_or]
  by_cases h : i < 8 <;> simp [h]

set_option maxRecDepth 100000 in
theorem nibble_bytes_fin : ∀ b : Fin 256, ∀ k : Fin 2,
    bits_high ((b.val : Nat) : Int) ((k.val : Nat) : Int) / 16 = b.val / 16 ∧
    bits_low ((b.val : Nat) : Int) ((k.val : Nat) : Int) / 16 = b.val % 16 ∧
    bits_high ((b.val : Nat) : Int) ((k.val : Nat) : Int) % 2 = k.val ∧
    bits_low ((b.val : Nat) : Int) ((k.val : Nat) : Int) % 2 = k.val ∧
    bits_high ((b.val : Nat) : Int) ((k.val : Nat) : Int) &&& 0x04 = 0 ∧
    bits_low ((b.val : Nat) : Int) ((k.val : Nat) : Int) &&& 0x04 = 0 := by
  decide

set_option maxRecDepth 100000 in
theorem enable_pulse_fin : ∀ x : Fin 256, x.val &&& 0x04 = 0 →
    (x.val ||| 0x04) &&& 0x04 = 0x04 ∧ (x.val ||| 0x04) &&& 0xFB = x.val ∧
    x.val &&& 0xFB = x.val := by
  decide

set_option maxRecDepth 100000 in
theorem backlight_kept_fin : ∀ x : Fin 256,
    (x.val ||| 0x08) &&& 0x08 = 0x08 ∧ ((x.val ||| 0x08) ||| 0x04) &&& 0x08 = 0x08 ∧
    ((x.val ||| 0x08) &&& 0xFB) &&& 0x08 = 0x08 := by
  decide

theorem backlight_kept (x : Nat) :
    ((x ||| 0x08) % 256) &&& 0x08 = 0x08 ∧ (((x ||| 0x08) % 256) ||| 0x04) &&& 0x08 = 0x08 ∧
    (((x ||| 0x08) % 256) &&& 0xFB) &&& 0x08 = 0x08 := by
  have h := backlight_kept_fin ⟨x % 256, Nat.mod_lt _ (by decide)⟩
  rw [or_mod_256]
  exact h

theorem send_bytes_backlight (b md : Int) : ∀ v ∈ send_bytes b md, v &&& 0x08 = 0x08 := by
  intro v hv
  obtain ⟨h1, h2, h3⟩ := backlight_kept (int_bits md ||| (int_bits b &&& 0xF0))
  obtain ⟨l1, l2, l3⟩ :=
    backlight_kept (int_bits md ||| (((int_bits b <<< 4) % 4294967296) &&& 0xF0))
  simp only [send_bytes, bits_high, bits_low, LCD_BACKLIGHT, LCD_ENABLE, List.mem_cons,
    List.mem_singleton, List.not_mem_nil, or_false] at hv
  rcases hv with h | h | h | h | h | h <;> subst h <;> assumption

theorem spec_write_sends_chars (t : List Int) (r c : Nat) :
    ((spec_write_sends t r c).filter (fun p => decide (p.2 = LCD_CHR))).map Prod.fst = t := by
  induction t generalizing r c with
  | nil => rfl
  | cons ch s ih =>
    have hne : ¬ LCD_CMD = LCD_CHR := by decide
    by_cases h16 : c + 1 = 16
    · simp [spec_write_sends, h16, hne, ih]
    · simp [spec_write_sends, h16, ih]

/-! ## The answers of the bus are discarded -/

theorem same_but_acks_I2C_WRITE (d : Nat) (m m' : Machine) (h : same_but_acks m m') :
    same_but_acks (I2C_WRITE d m).2 (I2C_WRITE d m').2 := by
  obtain ⟨h1, h2, h3, h4, h5, h6⟩ := h
  simp [same_but_acks, h1, h2, h3, h4, h5, h6]

theorem same_but_acks_set_row (v : Nat) (m m' : Machine) (h : same_but_acks m m') :
    same_but_acks (set_row v m) (set_row v m') := by
  obtain ⟨h1, h2, h3, h4, h5, h6⟩ := h
  simp [same_but_acks, set_row, h2, h3, h4, h5, h6]

theorem same_but_acks_set_column (v : Nat) (m m' : Machine) (h : same_but_acks m m') :
    same_but_acks (set_column v m) (set_column v m') := by
  obtain ⟨h1, h2, h3, h4, h5, h6⟩ := h
  simp [same_but_acks, set_column, h1, h3, h4, h5, h6]

theorem same_but_acks_lcdsend (b md : Int) (m m' : Machine) (h : same_but_acks m m') :
    same_but_acks (lcdsend .lcd b md m) (lcdsend .lcd b md m') := by
  obtain ⟨h1, h2, h3, h4, h5, h6⟩ := h
  simp [same_but_acks, h1, h2, h3, h4, h5, h6]

theorem same_but_acks_lcdwrite_step (ch : Int) (m m' : Machine) (h : same_but_acks m m') :
    same_but_acks (lcdwrite_step .lcd ch m) (lcdwrite_step .lcd ch m') := by
  have hc : m.column = m'.column := h.2.1
  have hr : m.row = m'.row := h.1
  have a := same_but_acks_set_column (m.column + 1) _ _ (same_but_acks_lcdsend ch LCD_CHR m m' h)
  unfold lcdwrite_step
  simp only [lcdsend_column]
  rw [← hc]
  by_cases h16 : (set_column (m.column + 1) (lcdsend .lcd ch LCD_CHR m)).column = 16
  · have h16' : (set_column (m.column + 1) (lcdsend .lcd ch LCD_CHR m')).column = 16 := by
      rw [← a.2.1]; exact h16
    rw [if_pos h16, if_pos h16']
    apply same_but_acks_set_column
    by_cases h0 : (set_column (m.column + 1) (lcdsend .lcd ch LCD_CHR m)).row = 0
    · have h0' : (set_column (m.column + 1) (lcdsend .lcd ch LCD_CHR m')).row = 0 := by
        rw [← a.1]; exact h0
      rw [if_pos h0, if_pos h0']
      exact same_but_acks_lcdsend _ _ _ _ (same_but_acks_set_row 1 _ _ a)
    · have h0' : ¬ (set_column (m.column + 1) (lcdsend .lcd ch LCD_CHR m')).row = 0 := by
        rw [← a.1]; exact h0
      rw [if_neg h0, if_neg h0']
      exact same_but_acks_lcdsend _ _ _ _ (same_but_acks_set_row 0 _ _ a)
  · have h16' : ¬ (set_column (m.column + 1) (lcdsend .lcd ch LCD_CHR m')).column = 16 := by
      rw [← a.2.1]; exact h16
    rw [if_neg h16, if_neg h16']
    exact a

theorem same_but_acks_lcdwrite_loop (t : List Int) (m m' : Machine) (h : same_but_acks m m') :
    same_but_acks (lcdwrite_loop .lcd t m) (lcdwrite_loop .lcd t m') := by
  induction t generalizing m m' with
  | nil => exact h
  | cons ch s ih =>
    unfold lcdwrite_loop
    split
    · exact h
    · exact ih _ _ (same_but_acks_lcdwrite_step ch m m' h)

theorem lcdisplay_ioctl_backlight (arg : Nat) (m : Machine) :
    lcdisplay_ioctl .acquired LCD_BACKLIGHT arg m =
      (0, mutex_unlock (lcdsetbacklight .lcd (arg % 256)
        { m with mtx := true, trace := m.trace ++ [Event.lock] })) := by
  have h1 : ¬ LCD_BACKLIGHT = LCD_CLEAR := by decide
  have h2 : ¬ LCD_BACKLIGHT = LCD_HOME := by decide
  simp [lcdisplay_ioctl, mutex_lock_interruptible, h1, h2]

theorem lcdisplay_ioctl_clear (arg : Nat) (m : Machine) :
    lcdisplay_ioctl .acquired LCD_CLEAR arg m =
      (0, mutex_unlock (lcdclear .lcd
        { m with mtx := true, trace := m.trace ++ [Event.lock] })) := by
  simp [lcdisplay_ioctl, mutex_lock_interruptible]

theorem lcdisplay_ioctl_home (arg : Nat) (m : Machine) :
    lcdisplay_ioctl .acquired LCD_HOME arg m =
      (0, mutex_unlock (lcdhome .lcd
        { m with mtx := true, trace := m.trace ++ [Event.lock] })) := by
  have h1 : ¬ LCD_HOME = LCD_CLEAR := by decide
  simp [lcdisplay_ioctl, mutex_lock_interruptible, h1]

theorem lcdisplay_write_acquired (sz len : Nat) (t : List Int) (m : Machine) :
    lcdisplay_write sz .acquired (some t) len m =
      ((sz : Int), mutex_unlock (lcdwrite_loop .lcd t
        { m with mtx := true, trace := m.trace ++ [Event.lock] })) := by
  simp [lcdisplay_write, mutex_lock_interruptible, lcdwrite]

/-! ## Entry points, unfolded -/

theorem lcdisplay_ioctl_acquired (cmd arg : Nat) (m : Machine) :
    lcdisplay_ioctl .acquired cmd arg m =
      (0, mutex_unlock
        (if cmd = LCD_CLEAR then
          lcdclear .lcd { m with mtx := true, trace := m.trace ++ [Event.lock] }
        else if cmd = LCD_HOME then
          lcdhome .lcd { m with mtx := true, trace := m.trace ++ [Event.lock] }
        else if cmd = LCD_BACKLIGHT then
          lcdsetbacklight .lcd (arg % 256) { m with mtx := true, trace := m.trace ++ [Event.lock] }
        else { m with mtx := true, trace := m.trace ++ [Event.lock] })) := by
  simp [lcdisplay_ioctl, mutex_lock_interruptible]

theorem lcdisplay_open_acquired (m : Machine) :
    lcdisplay_open .acquired m =
      (0, mutex_unlock (lcdsetbacklight .lcd 1 (lcdrestart .lcd
        { m with mtx := true, trace := m.trace ++ [Event.lock] }))) := by
  simp [lcdisplay_open, mutex_lock_interruptible]

theorem lcdisplay_release_acquired (m : Machine) :
    lcdisplay_release .acquired m =
      (0, mutex_unlock (lcdsetbacklight .lcd 0 (lcdrestart .lcd
        { m with mtx := true, trace := m.trace ++ [Event.lock] }))) := by
  simp [lcdisplay_release, mutex_lock_interruptible]

@[simp] theorem lcdrestart_bus (m : Machine) :
    bus (lcdrestart .lcd m).trace =
      bus m.trace ++ send_bytes 0x01 LCD_CMD ++ send_bytes 0x02 LCD_CMD := by
  simp [lcdrestart]

@[simp] theorem lcdrestart_sends (m : Machine) :
    sends (lcdrestart .lcd m).trace = sends m.trace ++ [(0x01, LCD_CMD), (0x02, LCD_CMD)] := by
  simp [lcdrestart]

@[simp] theorem set_row_sends (v : Nat) (m : Machine) :
    sends (set_row v m).trace = sends m.trace := by
  simp [set_row]

@[simp] theorem set_column_sends (v : Nat) (m : Machine) :
    sends (set_column v m).trace = sends m.trace := by
  simp [set_column]

@[simp] theorem set_row_bus (v : Nat) (m : Machine) : bus (set_row v m).trace = bus m.trace := by
  simp [set_row]

@[simp] theorem set_column_bus (v : Nat) (m : Machine) :
    bus (set_column v m).trace = bus m.trace := by
  simp [set_column]

theorem banner_no_nul : ∀ ch ∈ banner, ch ≠ 0 := by decide

/-! ## The engine never touches the mutex -/

theorem no_lock_nil : no_lock [] := by
  intro e he; cases he

theorem no_lock_append (a b : List Event) (ha : no_lock a) (hb : no_lock b) :
    no_lock (a ++ b) := by
  intro e he
  rcases List.mem_append.mp he with h | h
  · exact ha e h
  · exact hb e h

theorem runs_unlocked_refl (m : Machine) : runs_unlocked m m :=
  ⟨[], by simp, no_lock_nil⟩

theorem runs_unlocked_trans (a b c : Machine) (h1 : runs_unlocked a b)
    (h2 : runs_unlocked b c) : runs_unlocked a c := by
  obtain ⟨d1, e1, n1⟩ := h1
  obtain ⟨d2, e2, n2⟩ := h2
  exact ⟨d1 ++ d2, by rw [e2, e1, List.append_assoc], no_lock_append d1 d2 n1 n2⟩

theorem runs_unlocked_I2C_WRITE (d : Nat) (m : Machine) : runs_unlocked m (I2C_WRITE d m).2 :=
  ⟨[Event.i2c (d % 256) (!(m.nack (bus m.trace).length))], rfl, by
    intro e he
    rw [List.mem_singleton] at he
    subst he
    exact ⟨by simp, by simp⟩⟩

theorem runs_unlocked_set_row (v : Nat) (m : Machine) : runs_unlocked m (set_row v m) :=
  ⟨[Event.store_row (v % 256)], rfl, by
    intro e he
    rw [List.mem_singleton] at he
    subst he
    exact ⟨by simp, by simp⟩⟩

theorem runs_unlocked_set_column (v : Nat) (m : Machine) : runs_unlocked m (set_column v m) :=
  ⟨[Event.store_column (v % 256)], rfl, by
    intro e he
    rw [List.mem_singleton] at he
    subst he
    exact ⟨by simp, by simp⟩⟩

theorem runs_unlocked_lcdtoggleenable (b : Int) (m : Machine) :
    runs_unlocked m (lcdtoggleenable .lcd b m) :=
  runs_unlocked_trans _ _ _ (runs_unlocked_I2C_WRITE _ m) (runs_unlocked_I2C_WRITE _ _)

theorem runs_unlocked_lcdsend (b md : Int) (m : Machine) :
    runs_unlocked m (lcdsend .lcd b md m) := by
  have h0 : runs_unlocked m { m with trace := m.trace ++ [Event.send b md] } :=
    ⟨[Event.send b md], rfl, by
      intro e he
      rw [List.mem_singleton] at he
      subst he
      exact ⟨by simp, by simp⟩⟩
  refine runs_unlocked_trans _ _ _ h0 ?_
  refine runs_unlocked_trans _ _ _ (runs_unlocked_I2C_WRITE (bits_high b md) _) ?_
  refine runs_unlocked_trans _ _ _ (runs_unlocked_lcdtoggleenable (bits_high b md) _) ?_
  refine runs_unlocked_trans _ _ _ (runs_unlocked_I2C_WRITE (bits_low b md) _) ?_
  exact runs_unlocked_lcdtoggleenable (bits_low b md) _

theorem runs_unlocked_lcdclear (m : Machine) : runs_unlocked m (lcdclear .lcd m) :=
  runs_unlocked_trans _ _ _ (runs_unlocked_set_column 0 m)
    (runs_unlocked_trans _ _ _ (runs_unlocked_set_row 0 _) (runs_unlocked_lcdsend _ _ _))

theorem runs_unlocked_lcdhome (m : Machine) : runs_unlocked m (lcdhome .lcd m) :=
  runs_unlocked_trans _ _ _ (runs_unlocked_set_column 0 m)
    (runs_unlocked_trans _ _ _ (runs_unlocked_set_row 0 _) (runs_unlocked_lcdsend _ _ _))

theorem runs_unlocked_lcdrestart (m : Machine) : runs_unlocked m (lcdrestart .lcd m) :=
  runs_unlocked_trans _ _ _ (runs_unlocked_lcdclear m) (runs_unlocked_lcdhome _)

theorem runs_unlocked_lcdsetbacklight (bl : Nat) (m : Machine) :
    runs_unlocked m (lcdsetbacklight .lcd bl m) :=
  runs_unlocked_I2C_WRITE _ m

theorem runs_unlocked_lcdwrite_step (ch : Int) (m : Machine) :
    runs_unlocked m (lcdwrite_step .lcd ch m) := by
  have h1 : runs_unlocked m (set_column (m.column + 1) (lcdsend .lcd ch LCD_CHR m)) :=
    runs_unlocked_trans _ _ _ (runs_unlocked_lcdsend ch LCD_CHR m) (runs_unlocked_set_column _ _)
  unfold lcdwrite_step
  simp only [lcdsend_column]
  split
  · refine runs_unlocked_trans _ _ _ h1 ?_
    split
    · exact runs_unlocked_trans _ _ _ (runs_unlocked_set_row 1 _)
        (runs_unlocked_trans _ _ _ (runs_unlocked_lcdsend _ _ _) (runs_unlocked_set_column 0 _))
    · exact runs_unlocked_trans _ _ _ (runs_unlocked_set_row 0 _)
        (runs_unlocked_trans _ _ _ (runs_unlocked_lcdsend _ _ _) (runs_unlocked_set_column 0 _))
  · exact h1

theorem runs_unlocked_lcdwrite_loop (t : List Int) (m : Machine) :
    runs_unlocked m (lcdwrite_loop .lcd t m) := by
  induction t generalizing m with
  | nil => exact runs_unlocked_refl m
  | cons ch s ih =>
    unfold lcdwrite_loop
    split
    · exact runs_unlocked_refl m
    · exact runs_unlocked_trans _ _ _ (runs_unlocked_lcdwrite_step ch m) (ih _)

theorem runs_unlocked_lcdinit (m : Machine) : runs_unlocked m (lcdinit .lcd m) := by
  unfold lcdinit lcdwrite
  refine runs_unlocked_trans _ _ _ (runs_unlocked_lcdsend 0x33 LCD_CMD m) ?_
  refine runs_unlocked_trans _ _ _ (runs_unlocked_lcdsend 0x32 LCD_CMD _) ?_
  refine runs_unlocked_trans _ _ _ (runs_unlocked_lcdsend 0x06 LCD_CMD _) ?_
  refine runs_unlocked_trans _ _ _ (runs_unlocked_lcdsend 0x0C LCD_CMD _) ?_
  refine runs_unlocked_trans _ _ _ (runs_unlocked_lcdsend 0x28 LCD_CMD _) ?_
  refine runs_unlocked_trans _ _ _ (runs_unlocked_lcdclear _) ?_
  refine runs_unlocked_trans _ _ _ (runs_unlocked_lcdhome _) ?_
  refine runs_unlocked_trans _ _ _ (runs_unlocked_set_row 0 _) ?_
  refine runs_unlocked_trans _ _ _ (runs_unlocked_set_column 0 _) ?_
  refine runs_unlocked_trans _ _ _ (runs_unlocked_lcdsend LCD_LINE0 LCD_CMD _) ?_
  exact runs_unlocked_lcdwrite_loop banner _

theorem runs_unlocked_lcdfinalize (m : Machine) : runs_unlocked m (lcdfinalize .lcd m) :=
  runs_unlocked_trans _ _ _ (runs_unlocked_lcdrestart m) (runs_unlocked_lcdsetbacklight 0 _)

theorem critical_section_of (m m2 : Machine)
    (h : runs_unlocked { m with mtx := true, trace := m.trace ++ [Event.lock] } m2) :
    ∃ d, (mutex_unlock m2).trace = m.trace ++ d ∧ critical_section d ∧
      (mutex_unlock m2).mtx = false := by
  obtain ⟨body, e, n⟩ := h
  refine ⟨Event.lock :: (body ++ [Event.unlock]), ?_, ⟨body, rfl, n⟩, rfl⟩
  simp only [mutex_unlock]
  rw [e]
  simp

/-! ## The initialisation sequence -/

theorem lcdinit_trace (m : Machine) :
    sends (lcdinit .lcd m).trace = sends m.trace ++
      [(0x33, LCD_CMD), (0x32, LCD_CMD), (0x06, LCD_CMD), (0x0C, LCD_CMD), (0x28, LCD_CMD),
       (0x01, LCD_CMD), (0x02, LCD_CMD), (0x80, LCD_CMD)] ++ spec_write_sends banner 0 0 ∧
    bus (lcdinit .lcd m).trace = bus m.trace ++ sends_bytes
      ([(0x33, LCD_CMD), (0x32, LCD_CMD), (0x06, LCD_CMD), (0x0C, LCD_CMD), (0x28, LCD_CMD),
        (0x01, LCD_CMD), (0x02, LCD_CMD), (0x80, LCD_CMD)] ++ spec_write_sends banner 0 0) ∧
    (lcdinit .lcd m).row = 1 ∧ (lcdinit .lcd m).column = 0 := by
  have hw : ∀ m0 : Machine, m0.row = 0 → m0.column = 0 →
      sends (lcdwrite_loop .lcd banner m0).trace =
        sends m0.trace ++ spec_write_sends banner 0 0 ∧
      bus (lcdwrite_loop .lcd banner m0).trace =
        bus m0.trace ++ sends_bytes (spec_write_sends banner 0 0) ∧
      (lcdwrite_loop .lcd banner m0).column = 0 ∧ (lcdwrite_loop .lcd banner m0).row = 1 := by
    intro m0 hr hc
    have hok : cursor_ok m0 := ⟨by omega, by omega⟩
    obtain ⟨a, b⟩ := lcdwrite_loop_sends banner m0 banner_no_nul hok
    obtain ⟨c, d⟩ := lcdwrite_loop_cursor banner m0 banner_no_nul hok
    rw [hr, hc] at a b
    rw [hc] at c
    rw [hc, hr] at d
    exact ⟨a, b, c.trans (by decide), d.trans (by decide)⟩
  obtain ⟨a, b, c, d⟩ := hw
    (lcdsend .lcd LCD_LINE0 LCD_CMD (set_column 0 (set_row 0 (lcdhome .lcd (lcdclear .lcd
      (lcdsend .lcd 0x28 LCD_CMD (lcdsend .lcd 0x0C LCD_CMD (lcdsend .lcd 0x06 LCD_CMD
        (lcdsend .lcd 0x32 LCD_CMD (lcdsend .lcd 0x33 LCD_CMD m))))))))))
    rfl rfl
  refine ⟨?_, ?_, d, c⟩
  · simp only [lcdinit, lcdwrite]
    rw [a]
    simp [LCD_LINE0]
  · simp only [lcdinit, lcdwrite]
    rw [b]
    simp [LCD_LINE0, sends_bytes]

/-! ## The reference controller follows the cursor -/

theorem address_counter_of_sends (a : Nat) (tr tr' : List Event) (L : List (Int × Int))
    (h : sends tr' = sends tr ++ L) :
    address_counter a tr' = L.foldl controller_step (address_counter a tr) := by
  unfold address_counter
  rw [h, List.foldl_append]

theorem controller_step_chr (a : Nat) (ch : Int) : controller_step a (ch, LCD_CHR) = a + 1 := by
  simp [controller_step]

theorem controller_step_clear (a : Nat) : controller_step a (0x01, LCD_CMD) = 0 := by
  simp [controller_step, LCD_CMD, LCD_CHR]

theorem controller_step_home (a : Nat) : controller_step a (0x02, LCD_CMD) = 0 := by
  simp [controller_step, LCD_CMD, LCD_CHR]

theorem controller_step_line0 (a : Nat) : controller_step a (LCD_LINE0, LCD_CMD) = 0 := by
  simp [controller_step, LCD_CMD, LCD_CHR, LCD_LINE0]

theorem controller_step_line1 (a : Nat) : controller_step a (LCD_LINE1, LCD_CMD) = 0x40 := by
  simp [controller_step, LCD_CMD, LCD_CHR, LCD_LINE1]

theorem cursor_synced_lcdclear (a : Nat) (m : Machine) : cursor_synced a (lcdclear .lcd m) := by
  refine ⟨⟨by simp, by simp⟩, ?_⟩
  rw [address_counter_of_sends a m.trace _ _ (lcdclear_sends m)]
  simp [controller_step_clear]

theorem cursor_synced_lcdhome (a : Nat) (m : Machine) : cursor_synced a (lcdhome .lcd m) := by
  refine ⟨⟨by simp, by simp⟩, ?_⟩
  rw [address_counter_of_sends a m.trace _ _ (lcdhome_sends m)]
  simp [controller_step_home]

theorem cursor_synced_of_same (a : Nat) (m m' : Machine) (h : cursor_synced a m)
    (hr : m'.row = m.row) (hc : m'.column = m.column) (hs : sends m'.trace = sends m.trace) :
    cursor_synced a m' := by
  obtain ⟨⟨h1, h2⟩, h3⟩ := h
  refine ⟨⟨by rw [hr]; exact h1, by rw [hc]; exact h2⟩, ?_⟩
  rw [hr, hc, ← h3]
  unfold address_counter
  rw [hs]

theorem cursor_synced_lcdwrite_step (a : Nat) (ch : Int) (m : Machine)
    (h : cursor_synced a m) : cursor_synced a (lcdwrite_step .lcd ch m) := by
  obtain ⟨hok, hac⟩ := h
  obtain ⟨sc, sr⟩ := lcdwrite_step_cursor ch m hok
  have ss := lcdwrite_step_sends ch m hok
  refine ⟨lcdwrite_step_ok ch m hok, ?_⟩
  rw [address_counter_of_sends a m.trace _ _ ss, sc, sr, hac]
  obtain ⟨hr, hc⟩ := hok
  by_cases h16 : m.column + 1 = 16
  · by_cases h0 : m.row = 0
    · simp [h16, h0, controller_step_line1]
    · have h1 : m.row = 1 := by omega
      simp [h16, h1, controller_step_line0]
  · have hm : (m.column + 1) % 16 = m.column + 1 := Nat.mod_eq_of_lt (by omega)
    simp [h16, hm, controller_step_chr]
    omega

theorem cursor_synced_lcdwrite_loop (a : Nat) (t : List Int) (m : Machine)
    (h : cursor_synced a m) : cursor_synced a (lcdwrite_loop .lcd t m) := by
  induction t generalizing m with
  | nil => exact h
  | cons ch s ih =>
    unfold lcdwrite_loop
    split
    · exact h
    · exact ih _ (cursor_synced_lcdwrite_step a ch m h)

theorem cursor_synced_lcdinit (a : Nat) (m : Machine) : cursor_synced a (lcdinit .lcd m) := by
  unfold lcdinit lcdwrite
  apply cursor_synced_lcdwrite_loop
  refine ⟨⟨by simp [set_row, set_column], by simp [set_row, set_column]⟩, ?_⟩
  rw [address_counter_of_sends a _ _ [(LCD_LINE0, LCD_CMD)] (lcdsend_sends _ _ _)]
  simp [controller_step_line0, set_row, set_column]

theorem cursor_synced_mutex_unlock (a : Nat) (m : Machine) (h : cursor_synced a m) :
    cursor_synced a (mutex_unlock m) :=
  cursor_synced_of_same a m (mutex_unlock m) h (mutex_unlock_row m) (mutex_unlock_column m)
    (mutex_unlock_sends m)

theorem cursor_synced_lcdsetbacklight (a bl : Nat) (m : Machine) (h : cursor_synced a m) :
    cursor_synced a (lcdsetbacklight .lcd bl m) :=
  cursor_synced_of_same a m (lcdsetbacklight .lcd bl m) h (lcdsetbacklight_row bl m)
    (lcdsetbacklight_column bl m) (lcdsetbacklight_sends bl m)

theorem cursor_synced_lock (a : Nat) (m : Machine) (h : cursor_synced a m) :
    cursor_synced a { m with mtx := true, trace := m.trace ++ [Event.lock] } :=
  cursor_synced_of_same a m { m with mtx := true, trace := m.trace ++ [Event.lock] } h rfl rfl
    (by simp)

theorem cursor_synced_lcdrestart (a : Nat) (m : Machine) :
    cursor_synced a (lcdrestart .lcd m) :=
  cursor_synced_lcdhome a (lcdclear .lcd m)

theorem cursor_synced_run_op (a : Nat) (o : Op) (m : Machine) (h : cursor_synced a m) :
    cursor_synced a (run_op m o) := by
  cases o with
  | do_open lk =>
    cases lk
    · simp only [run_op, lcdisplay_open_acquired]
      exact cursor_synced_mutex_unlock a _
        (cursor_synced_lcdsetbacklight a 1 _ (cursor_synced_lcdrestart a _))
    · exact h
  | do_release lk =>
    cases lk
    · simp only [run_op, lcdisplay_release_acquired]
      exact cursor_synced_mutex_unlock a _
        (cursor_synced_lcdsetbacklight a 0 _ (cursor_synced_lcdrestart a _))
    · exact h
  | do_write sz lk buffer len =>
    cases buffer with
    | none => exact h
    | some t =>
      cases lk
      · simp only [run_op, lcdisplay_write_acquired]
        exact cursor_synced_mutex_unlock a _
          (cursor_synced_lcdwrite_loop a t _ (cursor_synced_lock a m h))
      · exact h
  | do_ioctl lk cmd arg =>
    cases lk
    · simp only [run_op, lcdisplay_ioctl_acquired]
      apply cursor_synced_mutex_unlock
      split
      · exact cursor_synced_lcdclear a _
      · split
        · exact cursor_synced_lcdhome a _
        · split
          · exact cursor_synced_lcdsetbacklight a _ _ (cursor_synced_lock a m h)
          · exact cursor_synced_lock a m h
    · exact h

theorem cursor_synced_run_ops (a : Nat) (ops : List Op) (m : Machine)
    (h : cursor_synced a m) : cursor_synced a (run_ops ops m) := by
  induction ops generalizing m with
  | nil => exact h
  | cons o os ih => exact ih _ (cursor_synced_run_op a o m h)

/-! ## The low byte decides the nibble bytes -/

theorem and_mod_256 (x y : Nat) : (x &&& y) % 256 = x % 256 &&& y % 256 := by
  apply Nat.eq_of_testBit_eq
  intro i
  have e : (256 : Nat) = 2 ^ 8 := by norm_num
  simp only [e, Nat.testBit_mod_two_pow, Nat.testBit_and]
  by_cases h : i < 8 <;> simp [h]

theorem bits_high_eq (b md : Int) :
    bits_high b md = int_bits md % 256 ||| (int_bits b % 256 &&& 0xF0) ||| 0x08 := by
  unfold bits_high LCD_BACKLIGHT
  rw [or_mod_256, or_mod_256, and_mod_256]

theorem bits_low_eq (b md : Int) :
    bits_low b md =
      int_bits md % 256 ||| (int_bits b % 256 * 16 % 256 &&& 0xF0) ||| 0x08 := by
  unfold bits_low LCD_BACKLIGHT
  rw [or_mod_256, or_mod_256, and_mod_256, Nat.shiftLeft_eq]
  have h : int_bits b * 2 ^ 4 % 4294967296 % 256 = int_bits b % 256 * 16 % 256 := by omega
  rw [h]

theorem int_bits_low_byte (b : Int) : ((int_bits b % 256 : Nat) : Int) = b % 256 := by
  unfold int_bits
  omega

set_option maxRecDepth 100000 in
theorem low_byte_round_trip_fin : ∀ x : Fin 256, ∀ k : Fin 2,
    ((k.val ||| (x.val &&& 0xF0) ||| 0x08) &&& 0xF0) |||
      ((k.val ||| (x.val * 16 % 256 &&& 0xF0) ||| 0x08) >>> 4) = x.val ∧
    (k.val ||| (x.val &&& 0xF0) ||| 0x08) &&& 0x01 = k.val ∧
    (k.val ||| (x.val * 16 % 256 &&& 0xF0) ||| 0x08) &&& 0x01 = k.val := by
  decide

/-! ## Critical sections do not interleave -/

theorem interleaving_nil_left (b x : List Event) (h : interleaving [] b x) : x = b := by
  induction b generalizing x with
  | nil => cases h; rfl
  | cons e es ih =>
    cases h with
    | right _ h' => rw [ih _ h']

theorem interleaving_nil_right (a x : List Event) (h : interleaving a [] x) : x = a := by
  induction a generalizing x with
  | nil => cases h; rfl
  | cons e es ih =>
    cases h with
    | left _ h' => rw [ih _ h']

theorem interleaving_symm (a b x : List Event) (h : interleaving a b x) :
    interleaving b a x := by
  induction h with
  | nil => exact interleaving.nil
  | left e _ ih => exact interleaving.right e ih
  | right e _ ih => exact interleaving.left e ih

theorem interleaving_refl_left (a : List Event) : interleaving a [] a := by
  induction a with
  | nil => exact interleaving.nil
  | cons e es ih => exact interleaving.left e ih

theorem interleaving_append (a b : List Event) : interleaving a b (a ++ b) := by
  induction a with
  | nil => exact interleaving_symm _ _ _ (interleaving_refl_left b)
  | cons e es ih => exact interleaving.left e ih

theorem mutex_respected_cons_other (held : Bool) (e : Event) (es : List Event)
    (h1 : e ≠ Event.lock) (h2 : e ≠ Event.unlock) :
    mutex_respected held (e :: es) = mutex_respected held es := by
  cases e <;> simp_all [mutex_respected]

theorem interleaving_inside_section (body r x : List Event) (hb : no_lock body)
    (hx : interleaving (body ++ [Event.unlock]) (Event.lock :: r) x)
    (hl : mutex_respected true x = true) :
    x = body ++ [Event.unlock] ++ Event.lock :: r := by
  induction body generalizing x with
  | nil =>
    cases hx with
    | left _ h' => rw [interleaving_nil_left _ _ h']; rfl
    | right _ h' => simp [mutex_respected] at hl
  | cons e es ih =>
    have he := hb e (List.mem_cons_self _ _)
    have hes : no_lock es := fun y hy => hb y (List.mem_cons_of_mem _ hy)
    cases hx with
    | left _ h' =>
      rw [mutex_respected_cons_other true e _ he.1 he.2] at hl
      rw [ih _ hes h' hl]
      rfl
    | right _ h' => simp [mutex_respected] at hl

theorem critical_sections_serialize (d1 d2 x : List Event) (h1 : critical_section d1)
    (h2 : critical_section d2) (hx : interleaving d1 d2 x)
    (hl : mutex_respected false x = true) :
    x = d1 ++ d2 ∨ x = d2 ++ d1 := by
  obtain ⟨b1, e1, n1⟩ := h1
  obtain ⟨b2, e2, n2⟩ := h2
  subst e1
  subst e2
  cases hx with
  | left _ h' =>
    rename_i y
    left
    have hl' : mutex_respected true y = true := by simpa [mutex_respected] using hl
    rw [interleaving_inside_section b1 _ y n1 h' hl']
    simp
  | right _ h' =>
    rename_i y
    right
    have hl' : mutex_respected true y = true := by simpa [mutex_respected] using hl
    rw [interleaving_inside_section b2 _ y n2 (interleaving_symm _ _ _ h') hl']
    simp

theorem write_stretch_critical (sz len : Nat) (t : List Int) (m : Machine) (d : List Event)
    (h : (lcdisplay_write sz .acquired (some t) len m).2.trace = m.trace ++ d) :
    critical_section d := by
  rw [lcdisplay_write_acquired] at h
  obtain ⟨d', e, c, _⟩ := critical_section_of m _ (runs_unlocked_lcdwrite_loop t _)
  have h' : m.trace ++ d = m.trace ++ d' := h.symm.trans e
  rw [List.append_cancel_left h']
  exact c

theorem ioctl_stretch_critical (cmd arg : Nat) (m : Machine) (d : List Event)
    (h : (lcdisplay_ioctl .acquired cmd arg m).2.trace = m.trace ++ d) :
    critical_section d := by
  rw [lcdisplay_ioctl_acquired] at h
  have hr : runs_unlocked { m with mtx := true, trace := m.trace ++ [Event.lock] }
      (if cmd = LCD_CLEAR then
        lcdclear .lcd { m with mtx := true, trace := m.trace ++ [Event.lock] }
      else if cmd = LCD_HOME then
        lcdhome .lcd { m with mtx := true, trace := m.trace ++ [Event.lock] }
      else if cmd = LCD_BACKLIGHT then
        lcdsetbacklight .lcd (arg % 256) { m with mtx := true, trace := m.trace ++ [Event.lock] }
      else { m with mtx := true, trace := m.trace ++ [Event.lock] }) := by
    split
    · exact runs_unlocked_lcdclear _
    · split
      · exact runs_unlocked_lcdhome _
      · split
        · exact runs_unlocked_lcdsetbacklight _ _
        · exact runs_unlocked_refl _
  obtain ⟨d', e, c, _⟩ := critical_section_of m _ hr
  have h' : m.trace ++ d = m.trace ++ d' := h.symm.trans e
  rw [List.append_cancel_left h']
  exact c

/-! ## Claims -/

/-- C1: for a text of n non-NUL characters written from a cursor with row in {0,1} and
column c < 16, `lcdwrite` ends with column = (c + n) mod 16, and with the row it started
in when (c + n) div 16 is even, the other row when it is odd. -/
theorem lcdwrite_wraps (t : List Int) (m : Machine) (hz : ∀ ch ∈ t, ch ≠ 0)
    (hr : m.row = 0 ∨ m.row = 1) (hc : m.column < 16) :
    (lcdwrite .lcd (some t) m).column = (m.column + t.length) % 16 ∧
    (lcdwrite .lcd (some t) m).row =
      if (m.column + t.length) / 16 % 2 = 0 then m.row else 1 - m.row :=
  lcdwrite_loop_cursor t m hz ⟨by omega, hc⟩

/-- Witness of C1: 16 characters from (0,0) end at (1,0); 32 characters end at (0,0);
40 characters end at (0,8). -/
theorem lcdwrite_wraps_witness :
    ((lcdwrite .lcd (some (List.replicate 16 65)) (fresh 0 0 bus_ok)).column = 0 ∧
     (lcdwrite .lcd (some (List.replicate 16 65)) (fresh 0 0 bus_ok)).row = 1) ∧
    ((lcdwrite .lcd (some (List.replicate 32 65)) (fresh 0 0 bus_ok)).column = 0 ∧
     (lcdwrite .lcd (some (List.replicate 32 65)) (fresh 0 0 bus_ok)).row = 0) ∧
    ((lcdwrite .lcd (some (List.replicate 40 65)) (fresh 0 0 bus_ok)).column = 8 ∧
     (lcdwrite .lcd (some (List.replicate 40 65)) (fresh 0 0 bus_ok)).row = 0) :=
  ⟨lcdwrite_wraps (List.replicate 16 65) (fresh 0 0 bus_ok) (by decide) (Or.inl rfl) (by decide),
   lcdwrite_wraps (List.replicate 32 65) (fresh 0 0 bus_ok) (by decide) (Or.inl rfl) (by decide),
   lcdwrite_wraps (List.replicate 40 65) (fresh 0 0 bus_ok) (by decide) (Or.inl rfl) (by decide)⟩

/-- C2: the cursor invariant (row in {0,1}, 0 <= column < 16) is preserved by initialize,
open, release, write and control, for every text, command code, argument, lock outcome
and bus. -/
theorem cursor_ok_preserved (m : Machine) (h : cursor_ok m) (sz len cmd arg : Nat)
    (lk : LockOutcome) (buffer : Option (List Int)) :
    cursor_ok (lcdinit .lcd m) ∧
    cursor_ok (lcdisplay_probe m).2 ∧
    cursor_ok (lcdisplay_open lk m).2 ∧
    cursor_ok (lcdisplay_release lk m).2 ∧
    cursor_ok (lcdisplay_write sz lk buffer len m).2 ∧
    cursor_ok (lcdisplay_ioctl lk cmd arg m).2 := by
  refine ⟨lcdinit_ok m, ?_, ?_, ?_, ?_, ?_⟩
  · simp only [lcdisplay_probe]
    exact lcdinit_ok _
  · cases lk
    · simp [lcdisplay_open, mutex_lock_interruptible, cursor_ok]
    · simpa [lcdisplay_open, mutex_lock_interruptible] using h
  · cases lk
    · simp [lcdisplay_release, mutex_lock_interruptible, cursor_ok]
    · simpa [lcdisplay_release, mutex_lock_interruptible] using h
  · cases buffer with
    | none => simpa [lcdisplay_write] using h
    | some t =>
      cases lk
      · have := lcdwrite_loop_ok t { m with mtx := true, trace := m.trace ++ [Event.lock] } h
        simpa [lcdisplay_write, mutex_lock_interruptible, lcdwrite, cursor_ok] using this
      · simpa [lcdisplay_write, mutex_lock_interruptible] using h
  · cases lk
    · by_cases h1 : cmd = LCD_CLEAR
      · simp [lcdisplay_ioctl, mutex_lock_interruptible, cursor_ok, h1]
      · by_cases h2 : cmd = LCD_HOME
        · have h21 : ¬ LCD_HOME = LCD_CLEAR := by decide
          simp [lcdisplay_ioctl, mutex_lock_interruptible, cursor_ok, h2, h21]
        · by_cases h3 : cmd = LCD_BACKLIGHT
          · have h31 : ¬ LCD_BACKLIGHT = LCD_CLEAR := by decide
            have h32 : ¬ LCD_BACKLIGHT = LCD_HOME := by decide
            simpa [lcdisplay_ioctl, mutex_lock_interruptible, cursor_ok, h3, h31, h32] using h
          · simpa [lcdisplay_ioctl, mutex_lock_interruptible, cursor_ok, h1, h2, h3] using h
    · simpa [lcdisplay_ioctl, mutex_lock_interruptible] using h

/-- Witness of C2: from (1,15), a one-character write, a clear, an open and an unknown
command all leave a state with row in {0,1} and column < 16. -/
theorem cursor_ok_preserved_witness :
    cursor_ok (fresh 1 15 bus_ok) ∧
    cursor_ok (lcdisplay_write 4 .acquired (some [65]) 1 (fresh 1 15 bus_ok)).2 ∧
    cursor_ok (lcdisplay_ioctl .acquired 7 0 (fresh 1 15 bus_ok)).2 :=
  ⟨by decide,
   (cursor_ok_preserved (fresh 1 15 bus_ok) (by decide) 4 1 7 0 .acquired (some [65])).2.2.2.2.1,
   (cursor_ok_preserved (fresh 1 15 bus_ok) (by decide) 4 1 7 0 .acquired (some [65])).2.2.2.2.2⟩

/-- C3: for a byte b and a mode m in {Command, Character}, `lcdsend` puts exactly six
bytes on the bus, in the order hi, hi OR 0x04, hi AND NOT 0x04, lo, lo OR 0x04,
lo AND NOT 0x04; bits 7..4 of hi and lo are the high and the low nibble of b, bit 0 of both
is m, the enable bit is clear in hi and lo, so per nibble the enable bit goes clear, set,
clear while the other seven bits stay as they are. -/
theorem lcdsend_six_transfers (b : Nat) (md : Int) (m : Machine) (hb : b < 256)
    (hmd : md = LCD_CMD ∨ md = LCD_CHR) :
    bus (lcdsend .lcd (b : Int) md m).trace = bus m.trace ++
      [bits_high b md, bits_high b md ||| 0x04, bits_high b md &&& 0xFB,
       bits_low b md, bits_low b md ||| 0x04, bits_low b md &&& 0xFB] ∧
    bits_high b md / 16 = b / 16 ∧ bits_low b md / 16 = b % 16 ∧
    ((bits_high b md % 2 : Nat) : Int) = md ∧ ((bits_low b md % 2 : Nat) : Int) = md ∧
    bits_high b md &&& 0x04 = 0 ∧ bits_low b md &&& 0x04 = 0 ∧
    (bits_high b md ||| 0x04) &&& 0x04 = 0x04 ∧ (bits_low b md ||| 0x04) &&& 0x04 = 0x04 ∧
    (bits_high b md ||| 0x04) &&& 0xFB = bits_high b md ∧
    (bits_low b md ||| 0x04) &&& 0xFB = bits_low b md ∧
    bits_high b md &&& 0xFB = bits_high b md ∧ bits_low b md &&& 0xFB = bits_low b md := by
  have key : ∀ k : Fin 2, md = ((k.val : Nat) : Int) →
      bits_high b md / 16 = b / 16 ∧ bits_low b md / 16 = b % 16 ∧
      ((bits_high b md % 2 : Nat) : Int) = md ∧ ((bits_low b md % 2 : Nat) : Int) = md ∧
      bits_high b md &&& 0x04 = 0 ∧ bits_low b md &&& 0x04 = 0 := by
    intro k hk
    obtain ⟨a1, a2, a3, a4, a5, a6⟩ := nibble_bytes_fin ⟨b, hb⟩ k
    subst hk
    exact ⟨a1, a2, by rw [a3], by rw [a4], a5, a6⟩
  have facts := hmd.elim (fun h => key 0 (by rw [h]; rfl)) (fun h => key 1 (by rw [h]; rfl))
  obtain ⟨a1, a2, a3, a4, a5, a6⟩ := facts
  obtain ⟨p1, p2, p3⟩ := enable_pulse_fin ⟨bits_high b md, bits_high_lt _ _⟩ a5
  obtain ⟨q1, q2, q3⟩ := enable_pulse_fin ⟨bits_low b md, bits_low_lt _ _⟩ a6
  exact ⟨by rw [lcdsend_bus]; rfl, a1, a2, a3, a4, a5, a6, p1, q1, p2, q2, p3, q3⟩

/-- Witness of C3: the character 'A' (0x41) in Character mode goes out as
0x49 0x4D 0x49 0x19 0x1D 0x19. -/
theorem lcdsend_six_transfers_witness :
    bus (lcdsend .lcd 0x41 LCD_CHR (fresh 0 0 bus_ok)).trace =
      [0x49, 0x4D, 0x49, 0x19, 0x1D, 0x19] :=
  (lcdsend_six_transfers 0x41 LCD_CHR (fresh 0 0 bus_ok) (by decide) (Or.inr rfl)).1

/-- Counterexample to C4: after `lcdsetbacklight(l, 0)` has put 0x00 on the bus, the six
bytes of a following `lcdsend(l, 'A', LCD_CHR)` all have bit 0x08 set, none has it clear. -/
theorem backlight_bit_counterexample :
    bus (lcdsend .lcd 0x41 LCD_CHR (lcdsetbacklight .lcd 0 (fresh 0 0 bus_ok))).trace =
      [0x00, 0x49, 0x4D, 0x49, 0x19, 0x1D, 0x19] ∧
    ¬ (∀ v ∈ (bus (lcdsend .lcd 0x41 LCD_CHR
        (lcdsetbacklight .lcd 0 (fresh 0 0 bus_ok))).trace).drop 1, v &&& 0x08 = 0) := by
  decide

/-- C4, amended: every byte `lcdsend` puts on the bus has the backlight bit 0x08 set,
for every value and mode and whatever `lcdsetbacklight` transmitted before; the device
keeps no backlight state, so a send after `lcdsetbacklight(l, 0)` switches the backlight
on again. -/
theorem lcdsend_backlight_always_set (b md : Int) (bl : Nat) (m : Machine) :
    bus (lcdsend .lcd b md (lcdsetbacklight .lcd bl m)).trace =
      bus m.trace ++ [if bl = 0 then 0x00 else 0x08] ++ send_bytes b md ∧
    (send_bytes b md).length = 6 ∧
    ∀ v ∈ send_bytes b md, v &&& 0x08 = 0x08 :=
  ⟨by simp, rfl, send_bytes_backlight b md⟩

/-- C5: for a text t without NUL written from a cursor with row in {0,1} and column < 16,
the logical sends of `lcdwrite` are exactly the characters of t in order, each in
Character mode, with one Command-mode line address right after each character that
brings the column to 16 (0xC0 when the row was 0, 0x80 when it was 1); the bus carries
the bytes of these sends and nothing else; the Character-mode sends, read in order, are
t itself. -/
theorem lcdwrite_sends_text (t : List Int) (m : Machine) (hz : ∀ ch ∈ t, ch ≠ 0)
    (hr : m.row = 0 ∨ m.row = 1) (hc : m.column < 16) :
    sends (lcdwrite .lcd (some t) m).trace =
      sends m.trace ++ spec_write_sends t m.row m.column ∧
    bus (lcdwrite .lcd (some t) m).trace =
      bus m.trace ++ sends_bytes (spec_write_sends t m.row m.column) ∧
    ((spec_write_sends t m.row m.column).filter (fun p => decide (p.2 = LCD_CHR))).map
      Prod.fst = t :=
  ⟨(lcdwrite_loop_sends t m hz ⟨by omega, hc⟩).1, (lcdwrite_loop_sends t m hz ⟨by omega, hc⟩).2,
   spec_write_sends_chars t m.row m.column⟩

/-- Witness of C5: "AB" written from (1,14) sends 'A', 'B' and then the line-0 address. -/
theorem lcdwrite_sends_text_witness :
    sends (lcdwrite .lcd (some [0x41, 0x42]) (fresh 1 14 bus_ok)).trace =
      [(0x41, LCD_CHR), (0x42, LCD_CHR), (0x80, LCD_CMD)] :=
  (lcdwrite_sends_text [0x41, 0x42] (fresh 1 14 bus_ok) (by decide) (Or.inr rfl) (by decide)).1

/-- Counterexample to C6: the bus rejects the very first transmission of a write of "AB"
(M = 2, N = 1). The five remaining bytes of 'A' and all six bytes of 'B' are still put on
the bus, and `lcdisplay_write` returns 4, the size of a pointer, not an error. -/
theorem bus_failure_counterexample :
    (lcdisplay_write 4 .acquired (some [0x41, 0x42]) 2 (fresh 0 0 (fun k => k == 0))).2.trace =
      [Event.lock,
       Event.send 0x41 1, Event.i2c 0x49 false, Event.i2c 0x4D true, Event.i2c 0x49 true,
       Event.i2c 0x19 true, Event.i2c 0x1D true, Event.i2c 0x19 true, Event.store_column 1,
       Event.send 0x42 1, Event.i2c 0x49 true, Event.i2c 0x4D true, Event.i2c 0x49 true,
       Event.i2c 0x29 true, Event.i2c 0x2D true, Event.i2c 0x29 true, Event.store_column 2,
       Event.unlock] ∧
    (lcdisplay_write 4 .acquired (some [0x41, 0x42]) 2 (fresh 0 0 (fun k => k == 0))).1 = 4 ∧
    ¬ ((lcdisplay_write 4 .acquired (some [0x41, 0x42]) 2 (fresh 0 0 (fun k => k == 0))).1 < 0 ∧
       (bus (lcdisplay_write 4 .acquired (some [0x41, 0x42]) 2
          (fresh 0 0 (fun k => k == 0))).2.trace).length ≤ 6) := by
  decide

/-- C6, amended: the driver discards the answer of every bus transmission. Whatever the bus
rejects, a write for which the lock is acquired puts the same bytes on the bus, makes the
same logical sends and cursor stores and ends at the same cursor as on a bus that
acknowledges everything, so every character of the text is still attempted; and what the
write hands back to its caller is what it hands back on a bus that acknowledges
everything, so no rejection reaches the caller. -/
theorem lcdisplay_write_ignores_bus_errors (sz len : Nat) (t : List Int) (m : Machine) :
    (lcdisplay_write sz .acquired (some t) len m).1 =
      (lcdisplay_write sz .acquired (some t) len { m with nack := bus_ok }).1 ∧
    same_but_acks (lcdisplay_write sz .acquired (some t) len m).2
      (lcdisplay_write sz .acquired (some t) len { m with nack := bus_ok }).2 := by
  rw [lcdisplay_write_acquired, lcdisplay_write_acquired]
  refine ⟨rfl, ?_⟩
  have h := same_but_acks_lcdwrite_loop t
    { m with mtx := true, trace := m.trace ++ [Event.lock] }
    { m with nack := bus_ok, mtx := true, trace := m.trace ++ [Event.lock] }
    ⟨rfl, rfl, rfl, rfl, rfl, rfl⟩
  obtain ⟨h1, h2, h3, h4, h5, h6⟩ := h
  exact ⟨h1, h2, rfl, by simpa [mutex_unlock] using h4, by simpa [mutex_unlock] using h5,
    by simpa [mutex_unlock] using h6⟩

/-- C7: a write of the empty text puts nothing on the bus and leaves row and column as
they were, whether or not the lock is acquired; a write of a missing (NULL) text returns 0
and leaves the whole machine as it was; `lcdwrite` itself is the identity on both. -/
theorem empty_write_noop (sz len : Nat) (lk : LockOutcome) (m : Machine) :
    bus (lcdisplay_write sz lk (some []) len m).2.trace = bus m.trace ∧
    sends (lcdisplay_write sz lk (some []) len m).2.trace = sends m.trace ∧
    stores (lcdisplay_write sz lk (some []) len m).2.trace = stores m.trace ∧
    (lcdisplay_write sz lk (some []) len m).2.row = m.row ∧
    (lcdisplay_write sz lk (some []) len m).2.column = m.column ∧
    lcdisplay_write sz lk none len m = (0, m) ∧
    lcdwrite .lcd (some []) m = m ∧ lcdwrite .lcd none m = m := by
  cases lk <;>
    simp [lcdisplay_write, mutex_lock_interruptible, lcdwrite, lcdwrite_loop, mutex_unlock]

/-- C8: `lcdsetbacklight`, called directly or through the control command LCD_BACKLIGHT,
leaves row and column as they were and puts exactly one byte on the bus, 0x00 or 0x08, so
every bit other than 0x08 is zero; it makes no logical send. -/
theorem backlight_independent (bl arg : Nat) (m : Machine) :
    ((lcdsetbacklight .lcd bl m).row = m.row ∧ (lcdsetbacklight .lcd bl m).column = m.column ∧
      sends (lcdsetbacklight .lcd bl m).trace = sends m.trace ∧
      ∃ v, bus (lcdsetbacklight .lcd bl m).trace = bus m.trace ++ [v] ∧
        (v = 0x00 ∨ v = 0x08) ∧ v &&& 0xF7 = 0) ∧
    ((lcdisplay_ioctl .acquired LCD_BACKLIGHT arg m).2.row = m.row ∧
      (lcdisplay_ioctl .acquired LCD_BACKLIGHT arg m).2.column = m.column ∧
      sends (lcdisplay_ioctl .acquired LCD_BACKLIGHT arg m).2.trace = sends m.trace ∧
      ∃ v, bus (lcdisplay_ioctl .acquired LCD_BACKLIGHT arg m).2.trace = bus m.trace ++ [v] ∧
        (v = 0x00 ∨ v = 0x08) ∧ v &&& 0xF7 = 0) := by
  rw [lcdisplay_ioctl_backlight]
  refine ⟨⟨rfl, rfl, by simp, if bl = 0 then 0x00 else 0x08, by simp, ?_, ?_⟩,
    ⟨rfl, rfl, by simp, if arg % 256 = 0 then 0x00 else 0x08, by simp, ?_, ?_⟩⟩
  · by_cases h : bl = 0 <;> simp [h]
  · by_cases h : bl = 0
    · simp [h]
    · rw [if_neg h]; decide
  · by_cases h : arg % 256 = 0 <;> simp [h]
  · by_cases h : arg % 256 = 0
    · simp [h]
    · rw [if_neg h]; decide

/-- C9, the code at the failing input: the control command LCD_BACKLIGHT passes its
`unsigned long` argument to a `u8` parameter, so the byte it transmits is 0x08 exactly when
arg mod 256 is not 0; for arg = 256, which is not 0, it transmits 0x00 and the backlight
goes off. -/
theorem ioctl_backlight_truncates (arg : Nat) (m : Machine) :
    bus (lcdisplay_ioctl .acquired LCD_BACKLIGHT arg m).2.trace =
      bus m.trace ++ [if arg % 256 = 0 then 0x00 else 0x08] ∧
    bus (lcdisplay_ioctl .acquired LCD_BACKLIGHT 256 m).2.trace = bus m.trace ++ [0x00] ∧
    bus (lcdisplay_ioctl .acquired LCD_BACKLIGHT 1 m).2.trace = bus m.trace ++ [0x08] := by
  rw [lcdisplay_ioctl_backlight, lcdisplay_ioctl_backlight, lcdisplay_ioctl_backlight]
  simp

/-- C10: with the lock acquired, the control command LCD_CLEAR sets row = column = 0, makes
the one logical send (0x01, Command) and puts exactly its six bytes on the bus; LCD_HOME
does the same with (0x02, Command); both return 0, for every state and argument. -/
theorem ioctl_clear_home (arg : Nat) (m : Machine) :
    ((lcdisplay_ioctl .acquired LCD_CLEAR arg m).1 = 0 ∧
      (lcdisplay_ioctl .acquired LCD_CLEAR arg m).2.row = 0 ∧
      (lcdisplay_ioctl .acquired LCD_CLEAR arg m).2.column = 0 ∧
      sends (lcdisplay_ioctl .acquired LCD_CLEAR arg m).2.trace =
        sends m.trace ++ [(0x01, LCD_CMD)] ∧
      bus (lcdisplay_ioctl .acquired LCD_CLEAR arg m).2.trace =
        bus m.trace ++ send_bytes 0x01 LCD_CMD) ∧
    ((lcdisplay_ioctl .acquired LCD_HOME arg m).1 = 0 ∧
      (lcdisplay_ioctl .acquired LCD_HOME arg m).2.row = 0 ∧
      (lcdisplay_ioctl .acquired LCD_HOME arg m).2.column = 0 ∧
      sends (lcdisplay_ioctl .acquired LCD_HOME arg m).2.trace =
        sends m.trace ++ [(0x02, LCD_CMD)] ∧
      bus (lcdisplay_ioctl .acquired LCD_HOME arg m).2.trace =
        bus m.trace ++ send_bytes 0x02 LCD_CMD) := by
  rw [lcdisplay_ioctl_clear, lcdisplay_ioctl_home]
  simp

/-- C11: with the lock acquired, a control command whose code is none of 0x01, 0x02 and
0x08 only takes and drops the mutex: nothing goes on the bus, no logical send and no
cursor store is made, row and column stay as they were, and the call returns 0. -/
theorem ioctl_unknown_ignored (cmd arg : Nat) (m : Machine) (h1 : cmd ≠ 0x01)
    (h2 : cmd ≠ 0x02) (h8 : cmd ≠ 0x08) :
    (lcdisplay_ioctl .acquired cmd arg m).1 = 0 ∧
    (lcdisplay_ioctl .acquired cmd arg m).2.trace = m.trace ++ [Event.lock, Event.unlock] ∧
    bus (lcdisplay_ioctl .acquired cmd arg m).2.trace = bus m.trace ∧
    sends (lcdisplay_ioctl .acquired cmd arg m).2.trace = sends m.trace ∧
    stores (lcdisplay_ioctl .acquired cmd arg m).2.trace = stores m.trace ∧
    (lcdisplay_ioctl .acquired cmd arg m).2.row = m.row ∧
    (lcdisplay_ioctl .acquired cmd arg m).2.column = m.column := by
  have e1 : ¬ cmd = LCD_CLEAR := h1
  have e2 : ¬ cmd = LCD_HOME := h2
  have e8 : ¬ cmd = LCD_BACKLIGHT := h8
  rw [lcdisplay_ioctl_acquired]
  simp [e1, e2, e8, mutex_unlock]

/-- Witness of C11: the command code 0x07 with argument 5 from the cursor (1,9). -/
theorem ioctl_unknown_ignored_witness :
    (lcdisplay_ioctl .acquired 0x07 5 (fresh 1 9 bus_ok)).1 = 0 ∧
    (lcdisplay_ioctl .acquired 0x07 5 (fresh 1 9 bus_ok)).2.trace = [Event.lock, Event.unlock] :=
  ⟨(ioctl_unknown_ignored 0x07 5 (fresh 1 9 bus_ok) (by decide) (by decide) (by decide)).1,
   (ioctl_unknown_ignored 0x07 5 (fresh 1 9 bus_ok) (by decide) (by decide) (by decide)).2.1⟩

/-- C12: from every state, open followed by open ends like a single open: both return 0,
end with row = 0, column = 0 and the mutex free, and the last byte on the bus is 0x08, the
backlight bit. -/
theorem open_idempotent (m : Machine) :
    ((lcdisplay_open .acquired m).1 = 0 ∧
      (lcdisplay_open .acquired m).2.row = 0 ∧
      (lcdisplay_open .acquired m).2.column = 0 ∧
      (lcdisplay_open .acquired m).2.mtx = false ∧
      (bus (lcdisplay_open .acquired m).2.trace).getLast? = some 0x08) ∧
    ((lcdisplay_open .acquired (lcdisplay_open .acquired m).2).1 = 0 ∧
      (lcdisplay_open .acquired (lcdisplay_open .acquired m).2).2.row = 0 ∧
      (lcdisplay_open .acquired (lcdisplay_open .acquired m).2).2.column = 0 ∧
      (lcdisplay_open .acquired (lcdisplay_open .acquired m).2).2.mtx = false ∧
      (bus (lcdisplay_open .acquired (lcdisplay_open .acquired m).2).2.trace).getLast? =
        some 0x08) := by
  have one : ∀ x : Machine, (lcdisplay_open .acquired x).1 = 0 ∧
      (lcdisplay_open .acquired x).2.row = 0 ∧ (lcdisplay_open .acquired x).2.column = 0 ∧
      (lcdisplay_open .acquired x).2.mtx = false ∧
      (bus (lcdisplay_open .acquired x).2.trace).getLast? = some 0x08 := by
    intro x
    rw [lcdisplay_open_acquired]
    refine ⟨rfl, rfl, rfl, rfl, ?_⟩
    simp
  exact ⟨one m, one _⟩

/-- C13: when the lock acquisition is interrupted, open, release, write of a non-NULL
text and control return -ERESTARTSYS, that is -512, and leave the whole machine as it
was: nothing goes on the bus and row and column are not touched. -/
theorem interrupted_lock_noop (sz len cmd arg : Nat) (t : List Int) (m : Machine) :
    lcdisplay_open .interrupted m = (-ERESTARTSYS, m) ∧
    lcdisplay_release .interrupted m = (-ERESTARTSYS, m) ∧
    lcdisplay_write sz .interrupted (some t) len m = (-ERESTARTSYS, m) ∧
    lcdisplay_ioctl .interrupted cmd arg m = (-ERESTARTSYS, m) ∧
    -ERESTARTSYS = -512 ∧ -ERESTARTSYS ≠ 0 ∧ -ERESTARTSYS ≠ (sz : Int) := by
  refine ⟨rfl, rfl, rfl, rfl, rfl, by decide, ?_⟩
  unfold ERESTARTSYS
  omega

set_option maxRecDepth 100000 in
/-- C17, the code at the failing input: with the lock acquired `lcdisplay_write` returns
`sizeof(buffer)`, the size of a pointer, whatever the text is; for the 12 characters of
"Test session" it makes 12 logical sends and returns 4 on a 32-bit target, 8 on a 64-bit
one. -/
theorem lcdisplay_write_returns_pointer_size (sz len : Nat) (t : List Int) (m : Machine) :
    (lcdisplay_write sz .acquired (some t) len m).1 = (sz : Int) ∧
    (sends (lcdisplay_write 4 .acquired
      (some [84, 101, 115, 116, 32, 115, 101, 115, 115, 105, 111, 110]) 12
      (fresh 0 0 bus_ok)).2.trace).length = 12 ∧
    (lcdisplay_write 4 .acquired
      (some [84, 101, 115, 116, 32, 115, 101, 115, 115, 105, 111, 110]) 12
      (fresh 0 0 bus_ok)).1 = 4 ∧
    (lcdisplay_write 8 .acquired
      (some [84, 101, 115, 116, 32, 115, 101, 115, 115, 105, 111, 110]) 12
      (fresh 0 0 bus_ok)).1 = 8 := by
  refine ⟨by rw [lcdisplay_write_acquired], by decide, by decide, by decide⟩

/-- C18: from every state `lcdinit` makes the logical sends 0x33, 0x32, 0x06, 0x0C, 0x28,
0x01, 0x02, 0x80, all in Command mode, and then is a write of the 16-character banner
"Driver LCDisplay" from row = column = 0, that is the 16 characters followed by the
line-1 address; the bus carries the bytes of these sends and nothing else, and the cursor
ends at (row=1, column=0), inside the cursor invariant. -/
theorem lcdinit_sequence (m : Machine) :
    sends (lcdinit .lcd m).trace = sends m.trace ++
      [(0x33, LCD_CMD), (0x32, LCD_CMD), (0x06, LCD_CMD), (0x0C, LCD_CMD), (0x28, LCD_CMD),
       (0x01, LCD_CMD), (0x02, LCD_CMD), (0x80, LCD_CMD)] ++ spec_write_sends banner 0 0 ∧
    bus (lcdinit .lcd m).trace = bus m.trace ++ sends_bytes
      ([(0x33, LCD_CMD), (0x32, LCD_CMD), (0x06, LCD_CMD), (0x0C, LCD_CMD), (0x28, LCD_CMD),
        (0x01, LCD_CMD), (0x02, LCD_CMD), (0x80, LCD_CMD)] ++ spec_write_sends banner 0 0) ∧
    spec_write_sends banner 0 0 = banner.map (fun ch => (ch, LCD_CHR)) ++ [(0xC0, LCD_CMD)] ∧
    banner = "Driver LCDisplay".toList.map (fun ch => (ch.toNat : Int)) ∧
    banner.length = 16 ∧
    (∃ m0, m0.row = 0 ∧ m0.column = 0 ∧ lcdinit .lcd m = lcdwrite .lcd (some banner) m0 ∧
      sends m0.trace = sends m.trace ++
        [(0x33, LCD_CMD), (0x32, LCD_CMD), (0x06, LCD_CMD), (0x0C, LCD_CMD), (0x28, LCD_CMD),
         (0x01, LCD_CMD), (0x02, LCD_CMD), (0x80, LCD_CMD)]) ∧
    (lcdinit .lcd m).row = 1 ∧ (lcdinit .lcd m).column = 0 ∧ cursor_ok (lcdinit .lcd m) := by
  obtain ⟨a, b, r, c⟩ := lcdinit_trace m
  refine ⟨a, b, by decide, by decide, rfl, ⟨_, rfl, rfl, rfl, ?_⟩, r, c, lcdinit_ok m⟩
  simp [LCD_LINE0]

/-- C14: whenever the lock is acquired, what open, release, write and control add to the
trace is one critical section: the mutex is taken first, dropped last, no mutex event
lies in between, so every bus transmission and every cursor store of the operation lies
between the two; the operation returns with the mutex free. This holds for every text
(the empty one too), every command code (unrecognized ones too) and every argument. -/
theorem operations_are_critical_sections (sz len cmd arg : Nat) (t : List Int)
    (m : Machine) :
    (∃ d, (lcdisplay_open .acquired m).2.trace = m.trace ++ d ∧ critical_section d ∧
      (lcdisplay_open .acquired m).2.mtx = false) ∧
    (∃ d, (lcdisplay_release .acquired m).2.trace = m.trace ++ d ∧ critical_section d ∧
      (lcdisplay_release .acquired m).2.mtx = false) ∧
    (∃ d, (lcdisplay_write sz .acquired (some t) len m).2.trace = m.trace ++ d ∧
      critical_section d ∧ (lcdisplay_write sz .acquired (some t) len m).2.mtx = false) ∧
    (∃ d, (lcdisplay_ioctl .acquired cmd arg m).2.trace = m.trace ++ d ∧
      critical_section d ∧ (lcdisplay_ioctl .acquired cmd arg m).2.mtx = false) := by
  rw [lcdisplay_open_acquired, lcdisplay_release_acquired, lcdisplay_write_acquired,
    lcdisplay_ioctl_acquired]
  refine ⟨critical_section_of m _ ?_, critical_section_of m _ ?_, critical_section_of m _ ?_,
    critical_section_of m _ ?_⟩
  · exact runs_unlocked_trans _ _ _ (runs_unlocked_lcdrestart _)
      (runs_unlocked_lcdsetbacklight 1 _)
  · exact runs_unlocked_trans _ _ _ (runs_unlocked_lcdrestart _)
      (runs_unlocked_lcdsetbacklight 0 _)
  · exact runs_unlocked_lcdwrite_loop t _
  · split
    · exact runs_unlocked_lcdclear _
    · split
      · exact runs_unlocked_lcdhome _
      · split
        · exact runs_unlocked_lcdsetbacklight _ _
        · exact runs_unlocked_refl _

set_option maxRecDepth 100000 in
/-- C15, the code at the failing input: `lcdisplay_probe` and `lcdisplay_remove` run
`lcdinit` and `lcdfinalize` without taking the mutex. What they add to the trace has no
mutex event at all, yet it puts bytes on the bus (150 of them for the probe), and it
stores to row and column; the mutex is free in the machine `lcdisplay_probe` returns. -/
theorem probe_remove_run_unlocked (m : Machine) :
    (∃ d, (lcdisplay_probe m).2.trace = m.trace ++ d ∧ no_lock d ∧ bus d ≠ []) ∧
    (∃ d, (lcdisplay_remove .lcd m).2.trace = m.trace ++ d ∧ no_lock d ∧ bus d ≠ []) ∧
    (lcdisplay_probe (fresh 0 0 bus_ok)).2.mtx = false ∧
    (bus (lcdisplay_probe (fresh 0 0 bus_ok)).2.trace).length = 150 ∧
    (stores (lcdisplay_probe (fresh 0 0 bus_ok)).2.trace).length = 26 ∧
    (lcdisplay_remove .lcd (fresh 1 3 bus_ok)) =
      (0, { fresh 0 0 bus_ok with trace :=
        [Event.store_column 0, Event.store_row 0, Event.send 1 0,
         Event.i2c 0x08 true, Event.i2c 0x0C true, Event.i2c 0x08 true,
         Event.i2c 0x18 true, Event.i2c 0x1C true, Event.i2c 0x18 true,
         Event.store_column 0, Event.store_row 0, Event.send 2 0,
         Event.i2c 0x08 true, Event.i2c 0x0C true, Event.i2c 0x08 true,
         Event.i2c 0x28 true, Event.i2c 0x2C true, Event.i2c 0x28 true,
         Event.i2c 0x00 true] }) := by
  refine ⟨?_, ?_, by decide, by decide, by decide, by rfl⟩
  · have h : runs_unlocked m (lcdisplay_probe m).2 := by
      simp only [lcdisplay_probe]
      refine runs_unlocked_trans _ _ _ (runs_unlocked_set_row 0 m) ?_
      refine runs_unlocked_trans _ _ _ (runs_unlocked_set_column 0 _) ?_
      exact runs_unlocked_trans _ { set_column 0 (set_row 0 m) with mtx := false } _
        ⟨[], by simp, no_lock_nil⟩ (runs_unlocked_lcdinit _)
    obtain ⟨d, e, n⟩ := h
    have hb := (lcdinit_trace { set_column 0 (set_row 0 m) with mtx := false }).2.1
    have hbus : bus (lcdisplay_probe m).2.trace = bus m.trace ++ bus d := by
      rw [e]; simp
    refine ⟨d, e, n, ?_⟩
    intro h0
    rw [h0] at hbus
    simp only [lcdisplay_probe] at hbus
    rw [hb] at hbus
    simp [sends_bytes, send_bytes] at hbus
  · have h : runs_unlocked m (lcdisplay_remove .lcd m).2 := runs_unlocked_lcdfinalize m
    obtain ⟨d, e, n⟩ := h
    have hbus : bus (lcdisplay_remove .lcd m).2.trace = bus m.trace ++ bus d := by
      rw [e]; simp
    refine ⟨d, e, n, ?_⟩
    intro h0
    rw [h0] at hbus
    simp [lcdisplay_remove, lcdfinalize, send_bytes] at hbus

/-- C20: for every integer b, negative ones included, and every mode m in {0, 1}, if f is
the first and g the fourth of the six bytes `lcdsend` puts on the bus, then
(f AND 0xF0) OR (g >> 4) = b mod 256 and f AND 0x01 = g AND 0x01 = m. -/
theorem nibble_round_trip (b md : Int) (m : Machine) (hmd : md = 0 ∨ md = 1) :
    ∃ f x2 x3 g x5 x6 : Nat,
      bus (lcdsend .lcd b md m).trace = bus m.trace ++ [f, x2, x3, g, x5, x6] ∧
      (((f &&& 0xF0) ||| (g >>> 4) : Nat) : Int) = b % 256 ∧
      ((f &&& 0x01 : Nat) : Int) = md ∧ ((g &&& 0x01 : Nat) : Int) = md := by
  have key : ∀ k : Fin 2, md = ((k.val : Nat) : Int) →
      (((bits_high b md &&& 0xF0) ||| (bits_low b md >>> 4) : Nat) : Int) = b % 256 ∧
      ((bits_high b md &&& 0x01 : Nat) : Int) = md ∧
      ((bits_low b md &&& 0x01 : Nat) : Int) = md := by
    intro k hk
    have hm : int_bits md % 256 = k.val := by
      subst hk
      rw [int_bits_natCast _ (by omega)]
      omega
    obtain ⟨a1, a2, a3⟩ := low_byte_round_trip_fin ⟨int_bits b % 256, Nat.mod_lt _ (by decide)⟩ k
    rw [bits_high_eq, bits_low_eq, hm]
    refine ⟨?_, ?_, ?_⟩
    · rw [a1]; exact int_bits_low_byte b
    · rw [a2]; exact hk.symm
    · rw [a3]; exact hk.symm
  obtain ⟨a1, a2, a3⟩ := hmd.elim (fun h => key 0 (by rw [h]; rfl)) (fun h => key 1 (by rw [h]; rfl))
  exact ⟨_, _, _, _, _, _, by rw [lcdsend_bus]; rfl, a1, a2, a3⟩

/-- Witness of C20: the signed character -3 (0xFD) in Character mode goes out as
0xF9 0xFD 0xF9 0xD9 0xDD 0xD9, and 0xF0 OR 0x0D is 0xFD = -3 mod 256. -/
theorem nibble_round_trip_witness :
    ∃ f x2 x3 g x5 x6 : Nat,
      bus (lcdsend .lcd (-3) 1 (fresh 0 0 bus_ok)).trace = [] ++ [f, x2, x3, g, x5, x6] ∧
      (((f &&& 0xF0) ||| (g >>> 4) : Nat) : Int) = (-3) % 256 ∧
      ((f &&& 0x01 : Nat) : Int) = 1 ∧ ((g &&& 0x01 : Nat) : Int) = 1 :=
  nibble_round_trip (-3) 1 (fresh 0 0 bus_ok) (Or.inr rfl)

/-- C16: take the stretch of trace a write of text A adds, the stretch a write of text B
adds, and the stretch a control command adds, each with its lock acquired and from any
state. Every order-preserving merge of two of them in which the mutex is taken only
while free and dropped only while held is one stretch, complete, followed by the other,
complete; so the bytes on the bus are the bytes of one operation followed by the bytes
of the other, never an interleaving, and a control command lies entirely before or
entirely after a write. -/
theorem concurrent_operations_serialize (szA szB lenA lenB cmd arg : Nat) (A B : List Int)
    (mA mB mC : Machine) (dA dB dC x y : List Event)
    (hA : (lcdisplay_write szA .acquired (some A) lenA mA).2.trace = mA.trace ++ dA)
    (hB : (lcdisplay_write szB .acquired (some B) lenB mB).2.trace = mB.trace ++ dB)
    (hC : (lcdisplay_ioctl .acquired cmd arg mC).2.trace = mC.trace ++ dC)
    (hx : interleaving dA dB x) (hxl : mutex_respected false x = true)
    (hy : interleaving dA dC y) (hyl : mutex_respected false y = true) :
    ((x = dA ++ dB ∧ bus x = bus dA ++ bus dB) ∨ (x = dB ++ dA ∧ bus x = bus dB ++ bus dA)) ∧
    ((y = dA ++ dC ∧ bus y = bus dA ++ bus dC) ∨ (y = dC ++ dA ∧ bus y = bus dC ++ bus dA)) := by
  have cA := write_stretch_critical szA lenA A mA dA hA
  have cB := write_stretch_critical szB lenB B mB dB hB
  have cC := ioctl_stretch_critical cmd arg mC dC hC
  constructor
  · rcases critical_sections_serialize dA dB x cA cB hx hxl with h | h
    · exact Or.inl ⟨h, by rw [h, bus_append]⟩
    · exact Or.inr ⟨h, by rw [h, bus_append]⟩
  · rcases critical_sections_serialize dA dC y cA cC hy hyl with h | h
    · exact Or.inl ⟨h, by rw [h, bus_append]⟩
    · exact Or.inr ⟨h, by rw [h, bus_append]⟩

set_option maxRecDepth 100000 in
/-- Witness of C16: the writes of "AAAA" from (0,0) and of "BBBB" from (0,4), merged with
the second one first, and the write of "AAAA" merged with a clear that comes after it. -/
theorem concurrent_operations_serialize_witness :
    ((stretch_B ++ stretch_A = stretch_A ++ stretch_B ∧
        bus (stretch_B ++ stretch_A) = bus stretch_A ++ bus stretch_B) ∨
     (stretch_B ++ stretch_A = stretch_B ++ stretch_A ∧
        bus (stretch_B ++ stretch_A) = bus stretch_B ++ bus stretch_A)) ∧
    ((stretch_A ++ stretch_clear = stretch_A ++ stretch_clear ∧
        bus (stretch_A ++ stretch_clear) = bus stretch_A ++ bus stretch_clear) ∨
     (stretch_A ++ stretch_clear = stretch_clear ++ stretch_A ∧
        bus (stretch_A ++ stretch_clear) = bus stretch_clear ++ bus stretch_A)) :=
  concurrent_operations_serialize 4 4 4 4 LCD_CLEAR 0 [0x41, 0x41, 0x41, 0x41]
    [0x42, 0x42, 0x42, 0x42] (fresh 0 0 bus_ok) (fresh 0 4 bus_ok) (fresh 0 4 bus_ok)
    stretch_A stretch_B stretch_clear (stretch_B ++ stretch_A) (stretch_A ++ stretch_clear)
    rfl rfl rfl
    (interleaving_symm _ _ _ (interleaving_append _ _)) (by decide)
    (interleaving_append _ _) (by decide)

end LCDisplay
